import Mathlib

/-!
DynamicStore: a shallow embedding of `engine_impl.cpp`.

The engine keeps a backing file of 4096-byte clusters.  The state of an open
engine is the actual file size `_size`, the typed view of the static header
(`StaticMetadata`) and the bytes of the mapped file.

Conventions of the embedding.

* `uint64` values are natural numbers; every sum, product or difference the
  source computes in `uint64` is reduced modulo `2^64` here.
* The mapped file is a total map from byte offsets to bytes.  The source
  performs no bounds check on `Get`/`Set`/`memcpy`, and neither does the model.
* `StaticMetadata` is declared in `engine_impl.h`, which is not among the
  sources.  There are two embeddings of the engine.  In the first one
  (`Engine`) the header is kept as a record of its fields next to the file
  bytes, and accesses of the file through `Get`/`Set`/`MoveData`/`memcpy` act on
  the bytes only.  It is exact for every run whose byte accesses stay outside
  the bytes of the header; where a run leaves that range (a block at file
  offset 0) this is said at the statement.  In the second one (`MappedEngine`,
  namespace `Mapped`) the header is the typed view of the first bytes of the
  file that `GetStaticMetadata()` is, with the fields at the offsets that follow
  from the order of §3; it is exact also for runs that read or write bytes of
  the header, and the statements about such runs are made in it.
* The other declarations of `engine_impl.h` that the code uses (constants,
  `GetBlockType`, `IsIndexValid`, `Get`/`Set`/`MoveData`/`SetSize`) are modelled
  from the specification and marked so; for the index table and the array
  facade the cluster tree iterator is a parameter (`TreeOps`).  The member
  functions of the iterator that `engine_impl.cpp` defines (the constructor, the
  planning loop of `ExpandToSize`, `SeekToCluster`) are embedded on their own.
* `assert(...)` is the debug macro of `<cassert>`; the functions below are the
  ones obtained with assertions compiled out.  Where a statement is about an
  assertion its condition is spelled out as a proposition.
* `throw std::invalid_argument` is `Except.error Fault.invalid_argument`.
-/

namespace DynamicStore

/-! ## Constants and types of the absent header -/

/-- Modelled from the spec: `cluster_size = 4096` (§3; the source pins it with
`static_assert(cluster_size == 4096)` inside `Format`). -/
def cluster_size : Nat := 4096

/-- Modelled from the spec: `index_entry_size = 16` (§3). -/
def index_entry_size : Nat := 16

/-- Modelled from the spec: sentinel `free_block_tail = 0` (§3). -/
def free_block_tail : Nat := 0

/-- Number of values of a `uint64`. -/
def U64 : Nat := 2 ^ 64

/-- Modelled from the spec: sentinel `free_entry_array_size = U64_MAX` (§3). -/
def free_entry_array_size : Nat := 2 ^ 64 - 1

/-- Modelled from the spec: the storage classes `BlockType` (§3), in the order
of their numeric values `0 .. 10`. -/
inductive BlockType where
  | L8 | L16 | L32 | L64 | L128 | L256 | L512 | L1024 | L2048 | L4096 | L4096Plus
  deriving DecidableEq, Repr

/-- Numeric value of a `BlockType`, the cast `(uint64)block_type` of the source. -/
def BlockType.toNat : BlockType → Nat
  | .L8 => 0 | .L16 => 1 | .L32 => 2 | .L64 => 3 | .L128 => 4 | .L256 => 5
  | .L512 => 6 | .L1024 => 7 | .L2048 => 8 | .L4096 => 9 | .L4096Plus => 10

/-- Modelled from the spec: `block_size_table = [8, 16, ..., 4096, ∞]` (§3).  The
last slot is never read by the code embedded here; it is rendered as the
largest `uint64`. -/
def block_size_table : BlockType → Nat
  | .L8 => 8 | .L16 => 16 | .L32 => 32 | .L64 => 64 | .L128 => 128 | .L256 => 256
  | .L512 => 512 | .L1024 => 1024 | .L2048 => 2048 | .L4096 => 4096
  | .L4096Plus => 2 ^ 64 - 1

/-- Modelled from the spec: `GetBlockType(size)` is the smallest `Lk` with
`k ≥ size`, `L4096Plus` for `size > 4096`, and `L8` for `size == 0` (§3). -/
def GetBlockType (size : Nat) : BlockType :=
  if size ≤ 8 then .L8
  else if size ≤ 16 then .L16
  else if size ≤ 32 then .L32
  else if size ≤ 64 then .L64
  else if size ≤ 128 then .L128
  else if size ≤ 256 then .L256
  else if size ≤ 512 then .L512
  else if size ≤ 1024 then .L1024
  else if size ≤ 2048 then .L2048
  else if size ≤ 4096 then .L4096
  else .L4096Plus

/-- Modelled from the spec: `GetClusterNumber(size) = ⌈size / 4096⌉`, the number
of clusters that hold `size` bytes (§4.7). -/
def GetClusterNumber (size : Nat) : Nat := (size + (cluster_size - 1)) / cluster_size

/-- Modelled from the spec: an array handle `ArrayIndex { value : uint64 }` (§3). -/
structure ArrayIndex where
  value : Nat
  deriving DecidableEq, Repr

/-- Modelled from the spec: sentinel `free_index_tail = 0` (§3). -/
def free_index_tail : ArrayIndex := ⟨0⟩

/-- Modelled from the spec: the 16-byte `IndexEntry` (§3): `array_size`
followed by one 8-byte cell that is read as `data`, `offset` or
`next_free_index` (a union). -/
structure IndexEntry where
  array_size : Nat
  data : Nat
  deriving DecidableEq, Repr

/-- The `offset` arm of the union of an `IndexEntry`. -/
def IndexEntry.offset (e : IndexEntry) : Nat := e.data

/-- The `next_free_index` arm of the union of an `IndexEntry`. -/
def IndexEntry.next_free_index (e : IndexEntry) : ArrayIndex := ⟨e.data⟩

/-- Modelled from the spec: the fields of `StaticMetadata` (§3) that the code
embedded here reads or writes.  `free_block_head` is indexed by the block type,
as in `free_block_head[(uint64)block_type]`. -/
structure StaticMetadata where
  file_size : Nat
  index_table_entry : IndexEntry
  free_index_head : ArrayIndex
  free_block_head : BlockType → Nat
  free_cluster_head : Nat
  user_metadata_size : Nat

/-- One byte of the mapped file. -/
abbrev Byte := Fin 256

/-- State of an open engine: the actual file size `_size`, the static header
and the bytes of the mapped file.  The header is held as a record next to the
bytes, so a `Get`/`Set`/`MoveData` at an offset inside the header does not read
or change a field: this state is exact for runs that keep their byte accesses
off the header.  `MappedEngine` is the state with the header inside the
file. -/
structure Engine where
  size : Nat
  static_metadata : StaticMetadata
  mem : Nat → Byte

/-- The exception thrown by the public operations. -/
inductive Fault where
  | invalid_argument
  deriving DecidableEq, Repr

/-! ## Backing file -/

/-- Byte `k` of the little-endian encoding of a `uint64`. -/
def byteOf (v k : Nat) : Byte := ⟨(v / 256 ^ k) % 256, Nat.mod_lt _ (by decide)⟩

/-- Modelled from the spec: `Get<uint64>(offset)`, a little-endian typed copy
out of the file at a byte offset (§3, §4.1). -/
def Get64 (mem : Nat → Byte) (offset : Nat) : Nat :=
  (mem offset).val + 256 * ((mem (offset + 1)).val + 256 * ((mem (offset + 2)).val
    + 256 * ((mem (offset + 3)).val + 256 * ((mem (offset + 4)).val
    + 256 * ((mem (offset + 5)).val + 256 * ((mem (offset + 6)).val
    + 256 * (mem (offset + 7)).val))))))

/-- Modelled from the spec: `Set<uint64>(offset, value)`, a little-endian typed
copy into the file at a byte offset (§3, §4.1). -/
def Set64 (mem : Nat → Byte) (offset value : Nat) : Nat → Byte :=
  fun a => if offset ≤ a ∧ a < offset + 8 then byteOf value (a - offset) else mem a

/-- Modelled from the spec: `Get<IndexEntry>(offset)`: the two `uint64` cells
of an entry (§3, §4.1). -/
def GetEntry (mem : Nat → Byte) (offset : Nat) : IndexEntry :=
  ⟨Get64 mem offset, Get64 mem (offset + 8)⟩

/-- Modelled from the spec: `Set<IndexEntry>(offset, entry)` (§3, §4.1). -/
def SetEntry (mem : Nat → Byte) (offset : Nat) (entry : IndexEntry) : Nat → Byte :=
  Set64 (Set64 mem offset entry.array_size) (offset + 8) entry.data

/-- Modelled from the spec: `MoveData(src, dst, size)`, a possibly overlapping
byte copy inside the mapping (§4.1). -/
def MoveData (mem : Nat → Byte) (src dst size : Nat) : Nat → Byte :=
  fun a => if dst ≤ a ∧ a < dst + size then mem (src + (a - dst)) else mem a

/-- The copy `memcpy(file + dst, data, size)` from a caller's buffer into the
file; `data k` is byte `k` of the buffer. -/
def memcpyIn (mem : Nat → Byte) (dst : Nat) (data : Nat → Byte) (size : Nat) : Nat → Byte :=
  fun a => if dst ≤ a ∧ a < dst + size then data (a - dst) else mem a

/-- The copy `memcpy(out + pos, file + src, size)` from the file into a
caller's buffer. -/
def memcpyOut (mem : Nat → Byte) (src : Nat) (out : Nat → Byte) (pos size : Nat) : Nat → Byte :=
  fun k => if pos ≤ k ∧ k < pos + size then mem (src + (k - pos)) else out k

/-- Modelled from the spec: `SetSize(new_size)` of the backing file grows or
truncates the file (§4.1).  It is a backing-file operation and leaves the
static header alone; `Format` stores `file_size` itself right after it. -/
def SetSize (s : Engine) (new_size : Nat) : Engine :=
  { s with size := new_size }

/-- Modelled from the spec: `(offset & cluster_offset_mask)` rounds an offset
down to a cluster boundary (§3). -/
def clusterBase (offset : Nat) : Nat := offset - offset % cluster_size

/-- Modelled from the spec: `(offset & ~cluster_offset_mask)` is the offset
within its cluster (§3). -/
def offsetInCluster (offset : Nat) : Nat := offset % cluster_size

/-- Replace one freelist head of the header. -/
def setFreeBlockHead (s : Engine) (block_type : BlockType) (v : Nat) : Engine :=
  { s with static_metadata :=
      { s.static_metadata with
        free_block_head := Function.update s.static_metadata.free_block_head block_type v } }

/-! ## Block allocator (`engine_impl.cpp`, lines 79-122) -/

/-- The `for` loop of `InitializeClusterSection`: `block_offset` runs from
`end_offset - block_size` downwards in steps of `block_size` (in `uint64`)
while `block_offset >= begin_offset && block_offset < end_offset`; each
iteration stores `next_free_block` in the first 8 bytes of the block at
`cluster_address + block_offset` and makes `block_offset` the next value. -/
def InitializeClusterSection.loop (block_size cluster_offset begin_offset end_offset : Nat) :
    Nat → Nat → (Nat → Byte) → Nat → (Nat → Byte) × Nat
  | 0, _, mem, next_free_block => (mem, next_free_block)
  | fuel + 1, block_offset, mem, next_free_block =>
    if begin_offset ≤ block_offset ∧ block_offset < end_offset then
      InitializeClusterSection.loop block_size cluster_offset begin_offset end_offset fuel
        ((block_offset + U64 - block_size) % U64)
        (Set64 mem (cluster_offset + block_offset) next_free_block) block_offset
    else (mem, next_free_block)

/-- `EngineImpl::InitializeClusterSection`.  The loop visits at most
`end_offset / block_size + 1` offsets, so `end_offset + 1` steps of recursion
cover it. -/
def InitializeClusterSection (s : Engine) (block_type : BlockType)
    (cluster_offset begin_offset end_offset : Nat) : Engine × Nat :=
  let block_size := block_size_table block_type
  let next_free_block := s.static_metadata.free_block_head block_type
  let r := InitializeClusterSection.loop block_size cluster_offset begin_offset end_offset
    (end_offset + 1) ((end_offset + U64 - block_size) % U64) s.mem next_free_block
  (setFreeBlockHead { s with mem := r.1 } block_type r.2, r.2)

/-- `EngineImpl::InitializeCluster`. -/
def InitializeCluster (s : Engine) (block_type : BlockType) (cluster_offset : Nat) :
    Engine × Nat :=
  InitializeClusterSection s block_type cluster_offset 0 cluster_size

/-- `EngineImpl::ExtendFileByOneCluster`. -/
def ExtendFileByOneCluster (s : Engine) : Engine × Nat :=
  let old_size := s.static_metadata.file_size
  (SetSize s ((old_size + cluster_size) % U64), old_size)

/-- `EngineImpl::AllocateBlock`. -/
def AllocateBlock (s : Engine) (block_type : BlockType) : Engine × Nat :=
  let current_free_block := s.static_metadata.free_block_head block_type
  let r : Engine × Nat :=
    if current_free_block = free_block_tail then
      let e := ExtendFileByOneCluster s
      InitializeCluster e.1 block_type e.2
    else (s, current_free_block)
  let next_free_block := Get64 r.1.mem r.2
  (setFreeBlockHead r.1 block_type next_free_block, r.2)

/-- `EngineImpl::DeallocateBlock`. -/
def DeallocateBlock (s : Engine) (block_type : BlockType) (block_offset : Nat) : Engine :=
  let next_free_block := s.static_metadata.free_block_head block_type
  setFreeBlockHead { s with mem := Set64 s.mem block_offset next_free_block }
    block_type block_offset

/-! ## Format (`engine_impl.cpp`, lines 35-63) -/

/-- The loop `for (block_type = 1; block_type < block_type_number - 1; ++block_type)`
of `Format`: the heads of the classes `L16 .. L4096` become `free_block_tail`. -/
def Format.clearHeads (heads : BlockType → Nat) : BlockType → Nat :=
  fun t => if 1 ≤ t.toNat ∧ t.toNat < 10 then free_block_tail else heads t

/-- `EngineImpl::Format`. -/
def Format (s : Engine) : Engine :=
  let s := SetSize s cluster_size
  let s : Engine :=
    { s with static_metadata :=
        { file_size := s.size
          index_table_entry := ⟨8, 0⟩
          free_index_head := free_index_tail
          free_block_head := Format.clearHeads s.static_metadata.free_block_head
          free_cluster_head := free_block_tail
          user_metadata_size := 0 } }
  let s := (InitializeClusterSection s .L16 0 256 512).1
  let s := (InitializeClusterSection s .L32 0 512 1024).1
  let s := (InitializeClusterSection s .L64 0 1024 2048).1
  let s := (InitializeClusterSection s .L128 0 2048 3072).1
  (InitializeClusterSection s .L256 0 3072 4096).1

/-! ## The cluster tree iterator as a parameter -/

/-- The operations of `L4096PlusClusterIterator` that the index table and the
array facade call.  The class is declared in `engine_impl.h`, which is not among
the sources (its fields and their initial values, `Resize`, `GetEntry`,
`GotoNextCluster`, `GetCurrentClusterOffset`), and `ExpandToSizeOfLevel` and
`ShrinkToSize` have empty bodies in `engine_impl.cpp`; the iterator is therefore
taken as a parameter.  `create` is the constructor, `Resize s entry n` stands for
`L4096PlusClusterIterator iterator(*this, entry); iterator.Resize(n);` followed by
`iterator.GetEntry()`. -/
structure TreeOps where
  Cursor : Type
  create : Engine → IndexEntry → Cursor
  SeekToCluster : Engine → Cursor → Nat → Cursor
  GotoNextCluster : Engine → Cursor → Cursor
  GetCurrentClusterOffset : Cursor → Nat
  Resize : Engine → IndexEntry → Nat → Engine × IndexEntry

/-! ## Index table (`engine_impl.cpp`, lines 246-319) and resizer (lines 321-383) -/

/-- `EngineImpl::GetIndexEntryOffset`. -/
def GetIndexEntryOffset (T : TreeOps) (s : Engine) (index : ArrayIndex) : Nat :=
  let index_table_entry := s.static_metadata.index_table_entry
  let index_entry_offset_in_table := (index.value * index_entry_size) % U64
  let type := GetBlockType index_table_entry.array_size
  if type.toNat < BlockType.L4096Plus.toNat then
    (index_table_entry.offset + index_entry_offset_in_table) % U64
  else
    let iterator := T.SeekToCluster s (T.create s index_table_entry)
      (clusterBase index_entry_offset_in_table)
    (T.GetCurrentClusterOffset iterator + offsetInCluster index_entry_offset_in_table) % U64

/-- `EngineImpl::GetIndexEntry`. -/
def GetIndexEntry (T : TreeOps) (s : Engine) (index : ArrayIndex) : IndexEntry :=
  GetEntry s.mem (GetIndexEntryOffset T s index)

/-- `EngineImpl::SetIndexEntry`. -/
def SetIndexEntry (T : TreeOps) (s : Engine) (index : ArrayIndex) (entry : IndexEntry) : Engine :=
  { s with mem := SetEntry s.mem (GetIndexEntryOffset T s index) entry }

/-- Modelled from the spec: `IsIndexValid(i)` iff `i.value != 0` and
`i.value * index_entry_size < index_table_entry.array_size` and the entry's
`array_size != free_entry_array_size` (§3).  The function is declared in the
absent header. -/
def IsIndexValid (T : TreeOps) (s : Engine) (index : ArrayIndex) : Bool :=
  index.value != 0
    && decide (index.value * index_entry_size < s.static_metadata.index_table_entry.array_size)
    && (GetIndexEntry T s index).array_size != free_entry_array_size

/-- The `for` loop of `InitializeIndexEntry(index_begin, index_entry_begin,
index_entry_number)`: the pointer runs from the last entry down to the first;
with `k` entries left the current entry is number `k - 1`, at byte address
`addr + 16 * (k - 1)`. -/
def InitializeIndexEntry.loop (index_begin addr : Nat) :
    Nat → (Nat → Byte) → ArrayIndex → (Nat → Byte) × ArrayIndex
  | 0, mem, next_free_index => (mem, next_free_index)
  | k + 1, mem, next_free_index =>
    InitializeIndexEntry.loop index_begin addr k
      (SetEntry mem (addr + index_entry_size * k) ⟨free_entry_array_size, next_free_index.value⟩)
      ⟨(index_begin + k) % U64⟩

/-- `EngineImpl::InitializeIndexEntry(ArrayIndex, IndexEntry*, uint64)` for a
pointer into the mapped file (byte address `addr`). -/
def InitializeIndexEntry (s : Engine) (index_begin : ArrayIndex) (addr index_entry_number : Nat) :
    Engine × ArrayIndex :=
  let r := InitializeIndexEntry.loop index_begin.value addr index_entry_number s.mem
    s.static_metadata.free_index_head
  ({ s with mem := r.1, static_metadata := { s.static_metadata with free_index_head := r.2 } }, r.2)

/-- `EngineImpl::InitializeIndexEntry(ArrayIndex, ArrayIndex)`. -/
def InitializeIndexEntryRange (T : TreeOps) (s : Engine) (index_begin index_end : ArrayIndex) :
    Engine × ArrayIndex :=
  let index_entry_begin_offset := GetIndexEntryOffset T s index_begin
  let addr := clusterBase index_entry_begin_offset + offsetInCluster index_entry_begin_offset
  InitializeIndexEntry s index_begin addr ((index_end.value + U64 - index_begin.value) % U64)

/-- `EngineImpl::ResizeL4096PlusIndexEntry`. -/
def ResizeL4096PlusIndexEntry (T : TreeOps) (s : Engine) (entry : IndexEntry) (new_size : Nat) :
    Engine × IndexEntry :=
  if GetClusterNumber entry.array_size = GetClusterNumber new_size then
    (s, { entry with array_size := new_size })
  else T.Resize s entry new_size

/-- The block `if (from_type != to_type) { ... }` of `ResizeIndexEntry`
(lines 361-374), with `old_size` and `new_size` of the enclosing call. -/
def ResizeIndexEntry.reclass (s : Engine) (entry : IndexEntry) (from_type to_type : BlockType)
    (old_size new_size : Nat) : Engine × IndexEntry :=
  if from_type ≠ to_type then
    if to_type = .L8 then
      (s, { entry with data := Get64 s.mem entry.offset })
    else
      let a := AllocateBlock s to_type
      let destination_data_offset := a.2
      let s :=
        if from_type = .L8 then
          { a.1 with mem := Set64 a.1.mem destination_data_offset entry.data }
        else
          let moved := MoveData a.1.mem entry.offset destination_data_offset (min old_size new_size)
          DeallocateBlock { a.1 with mem := moved } from_type entry.offset
      (s, { entry with data := destination_data_offset })
  else (s, entry)

/-- `EngineImpl::ResizeIndexEntry`. -/
def ResizeIndexEntry (T : TreeOps) (s : Engine) (entry : IndexEntry) (new_size : Nat) :
    Engine × IndexEntry :=
  let old_size := entry.array_size
  let old_type := GetBlockType old_size
  let new_type := GetBlockType new_size
  if old_type = new_type then
    if old_type ≠ .L4096Plus then (s, { entry with array_size := new_size })
    else ResizeL4096PlusIndexEntry T s entry new_size
  else
    let r : (Engine × IndexEntry) × BlockType :=
      if old_type = .L4096Plus then (ResizeL4096PlusIndexEntry T s entry cluster_size, .L4096)
      else ((s, entry), old_type)
    let from_type := r.2
    let to_type := if new_type = .L4096Plus then .L4096 else new_type
    let m := ResizeIndexEntry.reclass r.1.1 r.1.2 from_type to_type old_size new_size
    if new_type = .L4096Plus then ResizeL4096PlusIndexEntry T m.1 m.2 new_size
    else (m.1, { m.2 with array_size := new_size })

/-- `EngineImpl::ExtendIndexTable`. -/
def ExtendIndexTable (T : TreeOps) (s : Engine) : Engine × ArrayIndex :=
  let index_table_entry := s.static_metadata.index_table_entry
  let old_size := index_table_entry.array_size
  let size_to_extend := min old_size cluster_size
  let new_size := (old_size + size_to_extend) % U64
  let r := ResizeIndexEntry T s index_table_entry new_size
  let s : Engine :=
    { r.1 with static_metadata := { r.1.static_metadata with index_table_entry := r.2 } }
  InitializeIndexEntryRange T s ⟨old_size / index_entry_size⟩ ⟨new_size / index_entry_size⟩

/-- `EngineImpl::AllocateIndex`. -/
def AllocateIndex (T : TreeOps) (s : Engine) : Engine × ArrayIndex :=
  let current_free_index := s.static_metadata.free_index_head
  let r : Engine × ArrayIndex :=
    if current_free_index.value = free_index_tail.value then ExtendIndexTable T s
    else (s, current_free_index)
  let entry := GetIndexEntry T r.1 r.2
  let s : Engine :=
    { r.1 with static_metadata := { r.1.static_metadata with
        free_index_head := entry.next_free_index } }
  (SetIndexEntry T s r.2 ⟨0, 0⟩, r.2)

/-- `EngineImpl::DeallocateIndex`.  The call `InitializeIndexEntry(index, &entry, 1)`
runs the loop of `InitializeIndexEntry` once on the local `entry`. -/
def DeallocateIndex (T : TreeOps) (s : Engine) (index : ArrayIndex) : Engine :=
  let entry := GetIndexEntry T s index
  let r := ResizeIndexEntry T s entry 0
  let next_free_index := r.1.static_metadata.free_index_head
  let entry : IndexEntry := ⟨free_entry_array_size, next_free_index.value⟩
  let s : Engine :=
    { r.1 with static_metadata := { r.1.static_metadata with
        free_index_head := ⟨(index.value + 0) % U64⟩ } }
  SetIndexEntry T s index entry

/-! ## Array facade (`engine_impl.cpp`, lines 385-473) -/

/-- `EngineImpl::CreateArray`. -/
def CreateArray (T : TreeOps) (s : Engine) : Engine × ArrayIndex :=
  AllocateIndex T s

/-- `EngineImpl::DestroyArray`. -/
def DestroyArray (T : TreeOps) (s : Engine) (index : ArrayIndex) : Except Fault Engine :=
  if ¬ IsIndexValid T s index then .error .invalid_argument
  else .ok (DeallocateIndex T s index)

/-- `EngineImpl::GetArraySize`. -/
def GetArraySize (T : TreeOps) (s : Engine) (index : ArrayIndex) : Except Fault Nat :=
  if ¬ IsIndexValid T s index then .error .invalid_argument
  else .ok (GetIndexEntry T s index).array_size

/-- `EngineImpl::SetArraySize`. -/
def SetArraySize (T : TreeOps) (s : Engine) (index : ArrayIndex) (size : Nat) :
    Except Fault Engine :=
  if ¬ IsIndexValid T s index then .error .invalid_argument
  else
    let entry := GetIndexEntry T s index
    let r := ResizeIndexEntry T s entry size
    .ok (SetIndexEntry T r.1 index r.2)

/-- The range test shared by `ReadArray` and `WriteArray` (lines 410 and 444):
`offset >= entry.array_size || offset + size >= entry.array_size`, the sum
taken in `uint64`. -/
def rangeRejected (array_size offset size : Nat) : Bool :=
  decide (offset ≥ array_size) || decide ((offset + size) % U64 ≥ array_size)

/-- The `while (true)` loop of `ReadArray` for a tree-backed array: `pos` is
the number of bytes already copied, `current_offset_in_cluster` the offset
inside the current leaf.  Every round copies at least one byte, so `size`
rounds cover the loop. -/
def ReadArray.loop (T : TreeOps) (s : Engine) :
    Nat → T.Cursor → Nat → Nat → Nat → (Nat → Byte) → (Nat → Byte)
  | 0, _, _, _, _, data => data
  | fuel + 1, iterator, size, pos, current_offset_in_cluster, data =>
    let current_size_to_copy := min size (cluster_size - current_offset_in_cluster)
    let data := memcpyOut s.mem (T.GetCurrentClusterOffset iterator + current_offset_in_cluster)
      data pos current_size_to_copy
    let size := size - current_size_to_copy
    if size > 0 then
      ReadArray.loop T s fuel (T.GotoNextCluster s iterator) size (pos + current_size_to_copy) 0 data
    else data

/-- `EngineImpl::ReadArray`.  `data` is the caller's buffer before the call,
the result is the buffer after it.  For an inline array the bytes come from
the local copy of `entry.data`. -/
def ReadArray (T : TreeOps) (s : Engine) (index : ArrayIndex) (offset size : Nat)
    (data : Nat → Byte) : Except Fault (Nat → Byte) :=
  if ¬ IsIndexValid T s index then .error .invalid_argument
  else if size = 0 then .ok data
  else
    let entry := GetIndexEntry T s index
    if rangeRejected entry.array_size offset size then .error .invalid_argument
    else
      let type := GetBlockType entry.array_size
      if type = .L8 then
        .ok (memcpyOut (Set64 (fun _ => 0) 0 entry.data) offset data 0 size)
      else if type.toNat < BlockType.L4096Plus.toNat then
        .ok (memcpyOut s.mem (clusterBase entry.offset + offsetInCluster entry.offset + offset)
          data 0 size)
      else
        let iterator := T.SeekToCluster s (T.create s entry) (clusterBase offset)
        .ok (ReadArray.loop T s size iterator size 0 (offsetInCluster offset) data)

/-- The `while (true)` loop of `WriteArray` for a tree-backed array. -/
def WriteArray.loop (T : TreeOps) :
    Nat → Engine → T.Cursor → Nat → Nat → Nat → (Nat → Byte) → Engine
  | 0, s, _, _, _, _, _ => s
  | fuel + 1, s, iterator, size, pos, current_offset_in_cluster, data =>
    let current_size_to_copy := min size (cluster_size - current_offset_in_cluster)
    let dst := T.GetCurrentClusterOffset iterator + current_offset_in_cluster
    let s : Engine := { s with mem := memcpyIn s.mem dst (fun k => data (pos + k)) current_size_to_copy }
    let size := size - current_size_to_copy
    if size > 0 then
      WriteArray.loop T fuel s (T.GotoNextCluster s iterator) size (pos + current_size_to_copy) 0 data
    else s

/-- `EngineImpl::WriteArray`.  For an inline array the bytes are copied into
the local `entry.data`, which is then stored with `SetIndexEntry`. -/
def WriteArray (T : TreeOps) (s : Engine) (index : ArrayIndex) (data : Nat → Byte)
    (size offset : Nat) : Except Fault Engine :=
  if ¬ IsIndexValid T s index then .error .invalid_argument
  else if size = 0 then .ok s
  else
    let entry := GetIndexEntry T s index
    if rangeRejected entry.array_size offset size then .error .invalid_argument
    else
      let type := GetBlockType entry.array_size
      if type = .L8 then
        let cell := memcpyIn (Set64 (fun _ => 0) 0 entry.data) offset data size
        .ok (SetIndexEntry T s index { entry with data := Get64 cell 0 })
      else if type.toNat < BlockType.L4096Plus.toNat then
        let dst := clusterBase entry.offset + offsetInCluster entry.offset + offset
        .ok { s with mem := memcpyIn s.mem dst data size }
      else
        let iterator := T.SeekToCluster s (T.create s entry) (clusterBase offset)
        .ok (WriteArray.loop T size s iterator size 0 (offsetInCluster offset) data)

/-! ## Load-time check (`engine_impl.cpp`, lines 12-33) -/

/-- `EngineImpl::LoadAndCheck`.  `max_user_metadata_size` is a constant of the
absent header and is a parameter here.  The final `assert(CheckConsistency() ==
true)` is a debug assertion on a function whose body is empty; it is not part
of the function with assertions compiled out. -/
def LoadAndCheck (max_user_metadata_size : Nat) (s : Engine) : Bool :=
  if s.size = 0 ∨ s.size % cluster_size ≠ 0 then false
  else if s.static_metadata.file_size ≠ s.size then false
  else if
    (let size := s.static_metadata.index_table_entry.array_size
     if size > cluster_size then decide (size % cluster_size ≠ 0)
     else decide (block_size_table (GetBlockType size) ≠ size)) then false
  else if s.static_metadata.user_metadata_size > max_user_metadata_size then false
  else true

/-! ## Observations and concrete runs -/

/-- The exception a call of the facade ended with, if any. -/
def raised {α : Type} : Except Fault α → Option Fault
  | .ok _ => none
  | .error f => some f

/-- Engine state after a call of the facade that started in state `s`: every
`throw` of the facade precedes the first write, so a call that throws leaves
the state as it was. -/
def stateAfter (s : Engine) : Except Fault Engine → Engine
  | .ok s1 => s1
  | .error _ => s

/-- The first `size` bytes that `ReadArray(index, offset, size, out)` leaves in
a zero-filled buffer `out`, or `none` when the call throws. -/
def bytesRead (T : TreeOps) (s : Engine) (index : ArrayIndex) (offset size : Nat) :
    Option (List Nat) :=
  match ReadArray T s index offset size (fun _ => 0) with
  | .ok out => some ((List.range size).map fun k => (out k).val)
  | .error _ => none

/-- Walk a block freelist: the offsets met from `head` on, following the
next-pointer in the first 8 bytes of each block, up to the tail sentinel.
`none` when the sentinel is not reached within `fuel` hops. -/
def freeListFrom (mem : Nat → Byte) : Nat → Nat → Option (List Nat)
  | 0, head => if head = free_block_tail then some [] else none
  | fuel + 1, head =>
    if head = free_block_tail then some []
    else (freeListFrom mem fuel (Get64 mem head)).map (fun l => head :: l)

/-- The freelist of a class, walked from `free_block_head[block_type]`.  A
freelist of blocks inside the file has fewer than `size / 8 + 1` members. -/
def freeList (s : Engine) (block_type : BlockType) : Option (List Nat) :=
  freeListFrom s.mem (s.size / 8 + 1) (s.static_metadata.free_block_head block_type)

/-- A new, empty backing file: size 0, every byte of the mapping zero, the
header view all zero. -/
def freshEngine : Engine :=
  { size := 0
    static_metadata := ⟨0, ⟨0, 0⟩, ⟨0⟩, fun _ => 0, 0, 0⟩
    mem := fun _ => 0 }

/-- An instance of the iterator parameter, used to state hypotheses at concrete
inputs.  Its `Resize` only records the new size.  In runs in which the index
table and every array stay at most one cluster long no operation of the
iterator is reached, and every instance gives the same result (see
`CreateArray_small`, `SetArraySize_small`, `WriteArray_small`,
`ReadArray_small`). -/
def plainOps : TreeOps where
  Cursor := Unit
  create := fun _ _ => ()
  SeekToCluster := fun _ _ _ => ()
  GotoNextCluster := fun _ _ => ()
  GetCurrentClusterOffset := fun _ => 0
  Resize := fun s entry new_size => (s, { entry with array_size := new_size })

/-- The eight bytes `"ABCDEFGH"`, continued with the following letters. -/
def letters : Nat → Byte := fun k => ⟨(65 + k) % 256, Nat.mod_lt _ (by decide)⟩

/-- A buffer whose bytes are all `0xFF`. -/
def allOnes : Nat → Byte := fun _ => 255

/-- The little-endian bytes of the number 8192: `00 20 00 00 ...`. -/
def bytes8192 : Nat → Byte := fun k => if k = 1 then 32 else 0

/-- Scenario S1: `Format()` on a fresh file. -/
def formatted : Engine := Format freshEngine

/-- The store after `Format()` and two calls of `CreateArray()`. -/
def twoCreated (T : TreeOps) : Engine := (CreateArray T (CreateArray T formatted).1).1

/-- The store after `Format()`, two calls of `CreateArray()` and
`SetArraySize(1, n)` for the handle 1 returned by the second call. -/
def sized (T : TreeOps) (n : Nat) : Engine :=
  stateAfter (twoCreated T) (SetArraySize T (twoCreated T) ⟨1⟩ n)

/-- The store `sized T 8` after `WriteArray(1, bytes8192, 7, 0)`: array 1 holds
the inline bytes `00 20 00 00 00 00 00 00`. -/
def written8 (T : TreeOps) : Engine :=
  stateAfter (sized T 8) (WriteArray T (sized T 8) ⟨1⟩ bytes8192 7 0)

/-- The store `written8 T` after `SetArraySize(1, 600)`: array 1 has 600 bytes
and starts with `00 20 00 ...`. -/
def grown600 (T : TreeOps) : Engine :=
  stateAfter (written8 T) (SetArraySize T (written8 T) ⟨1⟩ 600)

/-! ## Closed forms used by the proofs -/

/-- The bytes after the loop of `InitializeClusterSection` has threaded the
blocks `begin, begin + block_size, ..., begin + j * block_size` of a cluster,
last one first: the last block receives the previous head `next`, every other
block the in-cluster offset of its successor. -/
def threadBlocks (cluster_offset begin_offset block_size : Nat) :
    Nat → (Nat → Byte) → Nat → (Nat → Byte)
  | 0, mem, next => Set64 mem (cluster_offset + begin_offset) next
  | j + 1, mem, next =>
    threadBlocks cluster_offset begin_offset block_size j
      (Set64 mem (cluster_offset + (begin_offset + (j + 1) * block_size)) next)
      (begin_offset + (j + 1) * block_size)

/-- `l` is the freelist that starts at `head`: its members are non-zero, each
one stores the next in its first 8 bytes, and the last one stores the tail
sentinel. -/
def IsFreeChain (mem : Nat → Byte) : Nat → List Nat → Prop
  | head, [] => head = free_block_tail
  | head, x :: l => head = x ∧ x ≠ free_block_tail ∧ IsFreeChain mem (Get64 mem x) l

/-- The offsets `begin + i * block_size, begin + (i + 1) * block_size, ...` of
`n` consecutive blocks. -/
def blockList (begin_offset block_size : Nat) : Nat → Nat → List Nat
  | _, 0 => []
  | i, n + 1 => (begin_offset + i * block_size) :: blockList begin_offset block_size (i + 1) n

/-- The bytes of the file after `Format`, over the bytes `mem` from before:
the five sections of cluster 0 threaded in the order of the calls. -/
def Format.mem (mem : Nat → Byte) : Nat → Byte :=
  threadBlocks 0 3072 256 3 (threadBlocks 0 2048 128 7 (threadBlocks 0 1024 64 15
    (threadBlocks 0 512 32 15 (threadBlocks 0 256 16 15 mem 0) 0) 0) 0) 0

/-- Modelled from the spec: what §4.7 states of the iterator's `Resize`, whose
code is absent: it ends with `entry.array_size = new_size`, and it works on the
entry of one array, the allocator and the file, not on the descriptor of the
index table in the header. -/
def TreeOps.ResizeSetsSize (T : TreeOps) : Prop :=
  ∀ (s : Engine) (entry : IndexEntry) (new_size : Nat),
    (T.Resize s entry new_size).2.array_size = new_size ∧
    (T.Resize s entry new_size).1.static_metadata.index_table_entry
      = s.static_metadata.index_table_entry


/-! ## The freelist invariant (spec §3, §8) -/

/-- The intermediate classes `L16 .. L2048`, the ones the allocator keeps a
freelist for (§4.3). -/
def intermediateClasses : List BlockType :=
  [.L16, .L32, .L64, .L128, .L256, .L512, .L1024, .L2048]

/-- The file offsets held by live index entries: the block of the index table
and the block (or tree root) of every valid handle, for entries that are not
inline. -/
def liveBlocks (T : TreeOps) (s : Engine) : List Nat :=
  (if 8 < s.static_metadata.index_table_entry.array_size
    then [s.static_metadata.index_table_entry.offset] else []) ++
  (List.range (s.static_metadata.index_table_entry.array_size / index_entry_size)).filterMap
    fun i =>
      if IsIndexValid T s ⟨i⟩ = true ∧ 8 < (GetIndexEntry T s ⟨i⟩).array_size
      then some (GetIndexEntry T s ⟨i⟩).offset else none

/-- The freelist invariant for one class `C`, with `live` the blocks of the
live index entries: the chain from `free_block_head[C]` reaches the tail
sentinel, its members are pairwise distinct, `C`-aligned, outside the static
metadata region `[0, 256)`, entirely inside the current file, not a live block,
and on no other class's freelist. -/
def chainInvariant (s : Engine) (live : List Nat) (C : BlockType) : Bool :=
  match freeList s C with
  | none => false
  | some l =>
    decide l.Nodup && l.all fun x =>
      decide (x % block_size_table C = 0) && decide (256 ≤ x)
        && decide (x + block_size_table C ≤ s.size) && !(live.contains x)
        && intermediateClasses.all fun D => D == C || !(((freeList s D).getD []).contains x)

/-- The freelist invariant: `chainInvariant` for every intermediate class. -/
def FreelistInvariant (s : Engine) (live : List Nat) : Bool :=
  intermediateClasses.all (chainInvariant s live)

/-- The store after `Format()` on a file whose bytes 0..7 hold the number 4096.
These are the bytes of a formatted file when `file_size` is the first field of
the static header (the order of §3 and of the assignments in `Format`). -/
def formattedFileSizeFirst : Engine :=
  Format { freshEngine with mem := Set64 (fun _ => 0) 0 4096 }

/-! ## Index-table growth -/

/-- Modelled from the spec: `cluster_index_size = 8`, the size of a child
pointer in an internal node (§3). -/
def cluster_index_size : Nat := 8

/-- Modelled from the spec: `cluster_index_mask`, the mask `511` that selects
the slot of a child among the 512 of its parent (§4.7). -/
def cluster_index_mask : Nat := 511

/-- Modelled from the spec: `max_cluster_hierarchy_depth = 6` (§3). -/
def max_cluster_hierarchy_depth : Nat := 6

/-- Modelled from the spec: `GetClusterLogicIndexOfLevel(offset_in_array, level)`
is `offset_in_array >> (12 + 9 * level)` (§4.7). -/
def GetClusterLogicIndexOfLevel (offset_in_array level : Nat) : Nat :=
  offset_in_array >>> (12 + 9 * level)

/-- Modelled from the spec: one record of `cluster_level_stack` (§4.7): the
count of clusters of the level, the logical index of the current cluster of the
level, and the file offset of that cluster. -/
structure LevelRecord where
  cluster_number : Nat
  current_cluster_logic_index : Nat
  current_cluster_offset : Nat
  deriving DecidableEq, Repr

/-- Modelled from the spec: the fields of `L4096PlusClusterIterator` (§4.7).  The
array `cluster_level_stack` of `max_cluster_hierarchy_depth` records is a
function on all level numbers: with assertions compiled out the code indexes it
without a bound check. -/
structure L4096PlusClusterIterator where
  entry : IndexEntry
  cluster_level_stack : Nat → LevelRecord
  stack_level_count : Nat
  current_offset_in_array : Nat

/-- The record `stack[level]` with its `cluster_number` replaced. -/
def setClusterNumber (stack : Nat → LevelRecord) (level cluster_number : Nat) :
    Nat → LevelRecord :=
  fun l => if l = level then { stack l with cluster_number := cluster_number } else stack l

/-- The `while (cluster_number > 1)` loop of the constructor (lines 129-134).
`none` stands for a loop that has not ended within the fuel. -/
def L4096PlusClusterIterator.create.loop :
    Nat → Nat → (Nat → LevelRecord) → Nat → Option ((Nat → LevelRecord) × Nat)
  | 0, _, _, _ => none
  | fuel + 1, cluster_number, stack, stack_level_count =>
    if cluster_number > 1 then
      L4096PlusClusterIterator.create.loop fuel
        (GetClusterNumber ((cluster_number * cluster_index_size) % U64))
        (setClusterNumber stack stack_level_count cluster_number)
        ((stack_level_count + 1) % U64)
    else some (stack, stack_level_count)

/-- The constructor `L4096PlusClusterIterator(engine, entry)` (lines 125-135).
`uninitialised` is the content of `cluster_level_stack` the constructor starts
from: it writes only the `cluster_number` of the levels it pushes. -/
def L4096PlusClusterIterator.create (uninitialised : Nat → LevelRecord) (entry : IndexEntry) :
    Option L4096PlusClusterIterator :=
  match L4096PlusClusterIterator.create.loop 64 (GetClusterNumber entry.array_size)
      uninitialised 0 with
  | none => none
  | some r => some ⟨entry, r.1, r.2, U64 - 1⟩

/-- The number `⌈leaves / 512^level⌉` of clusters of a level of a tree with
`leaves` leaf clusters. -/
def levelCount (leaves level : Nat) : Nat := (leaves + 512 ^ level - 1) / 512 ^ level

/-- The planning loop of `ExpandToSize` (lines 149-161): `cluster_number` runs
through the counts of the levels of the new shape, and the loop leaves at the
first level whose recorded count equals the new one.  `none` stands for a loop
that has not ended within the fuel. -/
def ExpandToSize.plan (stack : Nat → LevelRecord) :
    Nat → Nat → (Nat → Nat) → Nat → Option ((Nat → Nat) × Nat)
  | 0, _, _, _ => none
  | fuel + 1, cluster_number, new_cluster_level_number, new_level_count =>
    if cluster_number > 1 then
      if (stack new_level_count).cluster_number = cluster_number then
        some (new_cluster_level_number, new_level_count)
      else
        ExpandToSize.plan stack fuel
          (GetClusterNumber ((cluster_number * cluster_index_size) % U64))
          (fun l => if l = new_level_count then cluster_number else new_cluster_level_number l)
          ((new_level_count + 1) % U64)
    else some (new_cluster_level_number, new_level_count)

/-- The two numbers compared at line 163 of `ExpandToSize(new_size)`, for the
iterator constructed over `entry`: the planned `new_level_count` and the
iterator's `stack_level_count`.  `uninitialised` and `locals` are the contents
of the stack and of the local array `new_cluster_level_number` before they are
written. -/
def ExpandToSize.levelCounts (uninitialised : Nat → LevelRecord) (locals : Nat → Nat)
    (entry : IndexEntry) (new_size : Nat) : Option (Nat × Nat) :=
  match L4096PlusClusterIterator.create uninitialised entry with
  | none => none
  | some it =>
    match ExpandToSize.plan it.cluster_level_stack 64 (GetClusterNumber new_size) locals 0 with
    | none => none
    | some r => some (r.2, it.stack_level_count)

/-- The record `stack[level]` with its `current_cluster_logic_index` replaced. -/
def setLogicIndex (stack : Nat → LevelRecord) (level index : Nat) : Nat → LevelRecord :=
  fun l => if l = level then { stack l with current_cluster_logic_index := index } else stack l

/-- The record `stack[level]` with its `current_cluster_offset` replaced. -/
def setClusterOffset (stack : Nat → LevelRecord) (level offset : Nat) : Nat → LevelRecord :=
  fun l => if l = level then { stack l with current_cluster_offset := offset } else stack l

/-- The first loop of `SeekToCluster` (lines 221-229): bottom-up, the logical
index of each level is replaced until a level is found whose index is already
the new one.  The result is the stack and `level_to_update`.  The loop makes at
most `stack_level_count` rounds; the fuel is one more than that. -/
def SeekToCluster.updateIndices (offset_in_array stack_level_count : Nat) :
    Nat → Nat → (Nat → LevelRecord) → (Nat → LevelRecord) × Nat
  | 0, level_to_update, stack => (stack, level_to_update)
  | fuel + 1, level_to_update, stack =>
    if level_to_update < stack_level_count then
      let current_cluster_logic_index :=
        GetClusterLogicIndexOfLevel offset_in_array level_to_update
      if (stack level_to_update).current_cluster_logic_index = current_cluster_logic_index then
        (stack, level_to_update)
      else
        SeekToCluster.updateIndices offset_in_array stack_level_count fuel
          (level_to_update + 1)
          (setLogicIndex stack level_to_update current_cluster_logic_index)
    else (stack, level_to_update)

/-- The second loop of `SeekToCluster` (lines 234-241): `current_level` runs from
`level_to_update` down to 0 (the decrement below 0 wraps and ends the loop).  The
first argument is `current_level + 1`. -/
def SeekToCluster.refreshOffsets (mem : Nat → Byte) :
    Nat → Nat → (Nat → LevelRecord) → (Nat → LevelRecord)
  | 0, _, stack => stack
  | current_level + 1, parent_level_block_offset, stack =>
    let current_cluster_logic_index := (stack current_level).current_cluster_logic_index
    let current_cluster_index_on_parent := current_cluster_logic_index &&& cluster_index_mask
    let current_cluster_index_offset :=
      (parent_level_block_offset
        + (current_cluster_index_on_parent * cluster_index_size) % U64) % U64
    let current_cluster_offset := Get64 mem current_cluster_index_offset
    SeekToCluster.refreshOffsets mem current_level current_cluster_offset
      (setClusterOffset stack current_level current_cluster_offset)

/-- `L4096PlusClusterIterator::SeekToCluster` (lines 218-243). -/
def SeekToCluster (s : Engine) (it : L4096PlusClusterIterator) (offset_in_array : Nat) :
    L4096PlusClusterIterator :=
  let r := SeekToCluster.updateIndices offset_in_array it.stack_level_count
    (it.stack_level_count + 1) 0 it.cluster_level_stack
  let level_to_update := r.2
  let parent_level_block_offset :=
    if level_to_update = (it.stack_level_count + U64 - 1) % U64 then it.entry.offset
    else (r.1 (level_to_update + 1)).current_cluster_offset
  { it with
    cluster_level_stack :=
      SeekToCluster.refreshOffsets s.mem (level_to_update + 1) parent_level_block_offset r.1
    current_offset_in_array := offset_in_array }

/-- Modelled from the spec: `GetCurrentClusterOffset()` is the cached offset of
level 0 (§4.7). -/
def GetCurrentClusterOffset (it : L4096PlusClusterIterator) : Nat :=
  (it.cluster_level_stack 0).current_cluster_offset

/-- Modelled from the spec: `GotoNextCluster()` is
`SeekToCluster(current_offset_in_array + cluster_size)` (§4.7). -/
def GotoNextCluster (s : Engine) (it : L4096PlusClusterIterator) : L4096PlusClusterIterator :=
  SeekToCluster s it ((it.current_offset_in_array + cluster_size) % U64)

/-- The reference walk of §4.7, in `uint64` arithmetic: from `node`, for
`L = levels - 1` down to 0, read the child pointer at slot
`(offset_in_array >> (12 + 9 * L)) & 511` of the current node.  The walk of a
tree of depth `d` starts at `entry.offset` with `levels = d`. -/
def referenceLeaf (mem : Nat → Byte) (offset_in_array : Nat) : Nat → Nat → Nat
  | 0, node => node
  | L + 1, node =>
    referenceLeaf mem offset_in_array L
      (Get64 mem ((node + (((offset_in_array >>> (12 + 9 * L)) &&& 511) * 8) % U64) % U64))

/-- A store that holds a tree of depth 1: the root block at file offset 8192
stores the offsets 12288 and 16384 of two leaf clusters. -/
def treeStore : Engine :=
  { freshEngine with
    size := 20480
    mem := Set64 (Set64 (fun _ => 0) 8192 12288) 8200 16384 }

/-- The entry of the array of `treeStore`: two leaf clusters, root at 8192. -/
def treeEntry : IndexEntry := ⟨8192, 8192⟩

/-- A cursor over `treeEntry` that sits on leaf 0: one level with two
clusters, current logical index 0, current leaf 12288; the records of the
levels that are not in use are zero. -/
def cursorAtLeaf0 : L4096PlusClusterIterator :=
  ⟨treeEntry, fun l => if l = 0 then ⟨2, 0, 12288⟩ else ⟨0, 0, 0⟩, 1, 0⟩

/-! ## The engine with the header inside the file

`GetStaticMetadata()` is a typed view of the first bytes of the file (§4.2 of
the specification, and the layout comment in `Format`).  The functions above
keep the header as a record next to the bytes, which is exact as long as no
`Get`/`Set`/`MoveData`/`memcpy` of a run touches the bytes of the header.  The
functions of the namespace `Mapped` below embed the same source functions with
the header read from and written to the file bytes, in the order of the
statements of the source; they are exact also for runs that touch the header,
for instance after `AllocateBlock` has handed out the file offset 0.
-/

/-- The engine state with the header inside the file: the actual file size
`_size` and the bytes of the mapped file. -/
structure MappedEngine where
  size : Nat
  mem : Nat → Byte

namespace Mapped

/-- Modelled from the spec: the byte offsets of the fields of `StaticMetadata`,
which is declared in the absent header.  §3 lists the fields in this order
(`Format` assigns them in the same order), each a `uint64` or made of
`uint64`s: `file_size` is at byte 0. -/
def file_size_offset : Nat := 0

/-- Modelled from the spec: `index_table_entry` (an `IndexEntry` of 16 bytes)
follows `file_size` (§3). -/
def index_table_entry_offset : Nat := 8

/-- Modelled from the spec: `free_index_head` follows `index_table_entry` (§3). -/
def free_index_head_offset : Nat := 24

/-- Modelled from the spec: the array `free_block_head` follows
`free_index_head` (§3); the code indexes it with the numeric value of the
class (`free_block_head[(uint64)block_type]`), one `uint64` per slot. -/
def free_block_head_offset (block_type : BlockType) : Nat := 32 + 8 * block_type.toNat

/-- Modelled from the spec: `free_cluster_head` follows the eleven slots of
`free_block_head` (§3). -/
def free_cluster_head_offset : Nat := 120

/-- Modelled from the spec: `user_metadata_size` follows `free_cluster_head`
(§3). -/
def user_metadata_size_offset : Nat := 128

/-- Modelled from the spec: `user_metadata`, the last field, follows
`user_metadata_size` (§3). -/
def user_metadata_offset : Nat := 136

/-- The field `file_size` of the header. -/
def file_size (m : MappedEngine) : Nat := Get64 m.mem file_size_offset

/-- The field `index_table_entry` of the header. -/
def index_table_entry (m : MappedEngine) : IndexEntry := GetEntry m.mem index_table_entry_offset

/-- The field `free_index_head` of the header. -/
def free_index_head (m : MappedEngine) : ArrayIndex := ⟨Get64 m.mem free_index_head_offset⟩

/-- The field `free_block_head[block_type]` of the header. -/
def free_block_head (m : MappedEngine) (block_type : BlockType) : Nat :=
  Get64 m.mem (free_block_head_offset block_type)

/-- The field `free_cluster_head` of the header. -/
def free_cluster_head (m : MappedEngine) : Nat := Get64 m.mem free_cluster_head_offset

/-- The field `user_metadata_size` of the header. -/
def user_metadata_size (m : MappedEngine) : Nat := Get64 m.mem user_metadata_size_offset

/-- The typed view of the header, `GetStaticMetadata()`, as a record. -/
def header (m : MappedEngine) : StaticMetadata :=
  { file_size := file_size m
    index_table_entry := index_table_entry m
    free_index_head := free_index_head m
    free_block_head := free_block_head m
    free_cluster_head := free_cluster_head m
    user_metadata_size := user_metadata_size m }

/-- The engine as the functions that keep the header as a record see it; the
operations of the iterator parameter read the file through it. -/
def view (m : MappedEngine) : Engine := ⟨m.size, header m, m.mem⟩

/-- A store of one 8-byte value at a byte offset of the file. -/
def store64 (m : MappedEngine) (offset value : Nat) : MappedEngine :=
  { m with mem := Set64 m.mem offset value }

/-- Modelled from the spec: `SetSize(new_size)` of the backing file (§4.1). -/
def SetSize (m : MappedEngine) (new_size : Nat) : MappedEngine :=
  { m with size := new_size }

/-- `EngineImpl::InitializeClusterSection` (lines 79-91): the old head is read
from the header, the loop threads the blocks, the new head is stored in the
header. -/
def InitializeClusterSection (m : MappedEngine) (block_type : BlockType)
    (cluster_offset begin_offset end_offset : Nat) : MappedEngine × Nat :=
  let block_size := block_size_table block_type
  let next_free_block := free_block_head m block_type
  let r := DynamicStore.InitializeClusterSection.loop block_size cluster_offset begin_offset
    end_offset (end_offset + 1) ((end_offset + U64 - block_size) % U64) m.mem next_free_block
  (store64 { m with mem := r.1 } (free_block_head_offset block_type) r.2, r.2)

/-- `EngineImpl::InitializeCluster` (lines 93-95). -/
def InitializeCluster (m : MappedEngine) (block_type : BlockType) (cluster_offset : Nat) :
    MappedEngine × Nat :=
  InitializeClusterSection m block_type cluster_offset 0 cluster_size

/-- `EngineImpl::ExtendFileByOneCluster` (lines 97-101). -/
def ExtendFileByOneCluster (m : MappedEngine) : MappedEngine × Nat :=
  let old_size := file_size m
  (SetSize m ((old_size + cluster_size) % U64), old_size)

/-- `EngineImpl::AllocateBlock` (lines 103-114). -/
def AllocateBlock (m : MappedEngine) (block_type : BlockType) : MappedEngine × Nat :=
  let current_free_block := free_block_head m block_type
  let r : MappedEngine × Nat :=
    if current_free_block = free_block_tail then
      let e := ExtendFileByOneCluster m
      InitializeCluster e.1 block_type e.2
    else (m, current_free_block)
  let next_free_block := Get64 r.1.mem r.2
  (store64 r.1 (free_block_head_offset block_type) next_free_block, r.2)

/-- `EngineImpl::DeallocateBlock` (lines 116-122). -/
def DeallocateBlock (m : MappedEngine) (block_type : BlockType) (block_offset : Nat) :
    MappedEngine :=
  let next_free_block := free_block_head m block_type
  store64 (store64 m block_offset next_free_block) (free_block_head_offset block_type)
    block_offset

/-- `EngineImpl::Format` (lines 35-63). -/
def Format (m : MappedEngine) : MappedEngine :=
  let m := SetSize m cluster_size
  let m := store64 m file_size_offset m.size
  let m := store64 m index_table_entry_offset 8
  let m := store64 m (index_table_entry_offset + 8) 0
  let m := store64 m free_index_head_offset free_index_tail.value
  let m := [BlockType.L16, .L32, .L64, .L128, .L256, .L512, .L1024, .L2048, .L4096].foldl
    (fun m block_type => store64 m (free_block_head_offset block_type) free_block_tail) m
  let m := store64 m free_cluster_head_offset free_block_tail
  let m := store64 m user_metadata_size_offset 0
  let m := (InitializeClusterSection m .L16 0 256 512).1
  let m := (InitializeClusterSection m .L32 0 512 1024).1
  let m := (InitializeClusterSection m .L64 0 1024 2048).1
  let m := (InitializeClusterSection m .L128 0 2048 3072).1
  (InitializeClusterSection m .L256 0 3072 4096).1

/-- `EngineImpl::StoreUserMetadata` (lines 74-77): the `memcpy` into the field
`user_metadata` of the header.  The assertion of line 75 is
`StoreUserMetadata.asserted`. -/
def StoreUserMetadata (m : MappedEngine) (data : Nat → Byte) (size : Nat) : MappedEngine :=
  { m with mem := memcpyIn m.mem user_metadata_offset data size }

/-- `EngineImpl::GetIndexEntryOffset` (lines 246-259). -/
def GetIndexEntryOffset (T : TreeOps) (m : MappedEngine) (index : ArrayIndex) : Nat :=
  let index_table_entry := index_table_entry m
  let index_entry_offset_in_table := (index.value * index_entry_size) % U64
  let type := GetBlockType index_table_entry.array_size
  if type.toNat < BlockType.L4096Plus.toNat then
    (index_table_entry.offset + index_entry_offset_in_table) % U64
  else
    let iterator := T.SeekToCluster (view m) (T.create (view m) index_table_entry)
      (clusterBase index_entry_offset_in_table)
    (T.GetCurrentClusterOffset iterator + offsetInCluster index_entry_offset_in_table) % U64

/-- `EngineImpl::GetIndexEntry` (lines 261-265). -/
def GetIndexEntry (T : TreeOps) (m : MappedEngine) (index : ArrayIndex) : IndexEntry :=
  GetEntry m.mem (GetIndexEntryOffset T m index)

/-- `EngineImpl::SetIndexEntry` (lines 267-270). -/
def SetIndexEntry (T : TreeOps) (m : MappedEngine) (index : ArrayIndex) (entry : IndexEntry) :
    MappedEngine :=
  { m with mem := SetEntry m.mem (GetIndexEntryOffset T m index) entry }

/-- Modelled from the spec: `IsIndexValid(i)` (§3), as `DynamicStore.IsIndexValid`. -/
def IsIndexValid (T : TreeOps) (m : MappedEngine) (index : ArrayIndex) : Bool :=
  index.value != 0
    && decide (index.value * index_entry_size < (index_table_entry m).array_size)
    && (GetIndexEntry T m index).array_size != free_entry_array_size

/-- `EngineImpl::InitializeIndexEntry(ArrayIndex, IndexEntry*, uint64)` (lines
272-281) for a pointer into the mapped file: the old head is read from the
header, the loop writes the entries, the new head is stored in the header. -/
def InitializeIndexEntry (m : MappedEngine) (index_begin : ArrayIndex)
    (addr index_entry_number : Nat) : MappedEngine × ArrayIndex :=
  let r := DynamicStore.InitializeIndexEntry.loop index_begin.value addr index_entry_number
    m.mem (free_index_head m)
  (store64 { m with mem := r.1 } free_index_head_offset r.2.value, r.2)

/-- `EngineImpl::InitializeIndexEntry(ArrayIndex, ArrayIndex)` (lines 283-289). -/
def InitializeIndexEntryRange (T : TreeOps) (m : MappedEngine)
    (index_begin index_end : ArrayIndex) : MappedEngine × ArrayIndex :=
  let index_entry_begin_offset := GetIndexEntryOffset T m index_begin
  let addr := clusterBase index_entry_begin_offset + offsetInCluster index_entry_begin_offset
  InitializeIndexEntry m index_begin addr ((index_end.value + U64 - index_begin.value) % U64)

/-- `EngineImpl::ResizeL4096PlusIndexEntry` (lines 321-330).  The iterator's
`Resize` is the parameter; it works on the file as the view shows it. -/
def ResizeL4096PlusIndexEntry (T : TreeOps) (m : MappedEngine) (entry : IndexEntry)
    (new_size : Nat) : MappedEngine × IndexEntry :=
  if GetClusterNumber entry.array_size = GetClusterNumber new_size then
    (m, { entry with array_size := new_size })
  else
    let r := T.Resize (view m) entry new_size
    (⟨r.1.size, r.1.mem⟩, r.2)

/-- The block `if (from_type != to_type) { ... }` of `ResizeIndexEntry`
(lines 361-374). -/
def ResizeIndexEntry.reclass (m : MappedEngine) (entry : IndexEntry)
    (from_type to_type : BlockType) (old_size new_size : Nat) : MappedEngine × IndexEntry :=
  if from_type ≠ to_type then
    if to_type = .L8 then
      (m, { entry with data := Get64 m.mem entry.offset })
    else
      let a := AllocateBlock m to_type
      let destination_data_offset := a.2
      let m :=
        if from_type = .L8 then
          store64 a.1 destination_data_offset entry.data
        else
          let moved := MoveData a.1.mem entry.offset destination_data_offset (min old_size new_size)
          DeallocateBlock { a.1 with mem := moved } from_type entry.offset
      (m, { entry with data := destination_data_offset })
  else (m, entry)

/-- `EngineImpl::ResizeIndexEntry` (lines 332-383). -/
def ResizeIndexEntry (T : TreeOps) (m : MappedEngine) (entry : IndexEntry) (new_size : Nat) :
    MappedEngine × IndexEntry :=
  let old_size := entry.array_size
  let old_type := GetBlockType old_size
  let new_type := GetBlockType new_size
  if old_type = new_type then
    if old_type ≠ .L4096Plus then (m, { entry with array_size := new_size })
    else ResizeL4096PlusIndexEntry T m entry new_size
  else
    let r : (MappedEngine × IndexEntry) × BlockType :=
      if old_type = .L4096Plus then (ResizeL4096PlusIndexEntry T m entry cluster_size, .L4096)
      else ((m, entry), old_type)
    let from_type := r.2
    let to_type := if new_type = .L4096Plus then .L4096 else new_type
    let c := ResizeIndexEntry.reclass r.1.1 r.1.2 from_type to_type old_size new_size
    if new_type = .L4096Plus then ResizeL4096PlusIndexEntry T c.1 c.2 new_size
    else (c.1, { c.2 with array_size := new_size })

/-- `EngineImpl::ExtendIndexTable` (lines 291-300). -/
def ExtendIndexTable (T : TreeOps) (m : MappedEngine) : MappedEngine × ArrayIndex :=
  let index_table_entry := index_table_entry m
  let old_size := index_table_entry.array_size
  let size_to_extend := min old_size cluster_size
  let new_size := (old_size + size_to_extend) % U64
  let r := ResizeIndexEntry T m index_table_entry new_size
  let m : MappedEngine := { r.1 with mem := SetEntry r.1.mem index_table_entry_offset r.2 }
  InitializeIndexEntryRange T m ⟨old_size / index_entry_size⟩ ⟨new_size / index_entry_size⟩

/-- `EngineImpl::AllocateIndex` (lines 302-312). -/
def AllocateIndex (T : TreeOps) (m : MappedEngine) : MappedEngine × ArrayIndex :=
  let current_free_index := free_index_head m
  let r : MappedEngine × ArrayIndex :=
    if current_free_index.value = free_index_tail.value then ExtendIndexTable T m
    else (m, current_free_index)
  let entry := GetIndexEntry T r.1 r.2
  let m := store64 r.1 free_index_head_offset entry.next_free_index.value
  (SetIndexEntry T m r.2 ⟨0, 0⟩, r.2)

/-- `EngineImpl::DeallocateIndex` (lines 314-319).  The call
`InitializeIndexEntry(index, &entry, 1)` runs the loop of `InitializeIndexEntry`
once on the local `entry` and stores the new head in the header. -/
def DeallocateIndex (T : TreeOps) (m : MappedEngine) (index : ArrayIndex) : MappedEngine :=
  let entry := GetIndexEntry T m index
  let r := ResizeIndexEntry T m entry 0
  let next_free_index := free_index_head r.1
  let entry : IndexEntry := ⟨free_entry_array_size, next_free_index.value⟩
  let m := store64 r.1 free_index_head_offset ((index.value + 0) % U64)
  SetIndexEntry T m index entry

/-- `EngineImpl::CreateArray` (lines 385-387). -/
def CreateArray (T : TreeOps) (m : MappedEngine) : MappedEngine × ArrayIndex :=
  AllocateIndex T m

/-- `EngineImpl::DestroyArray` (lines 389-392). -/
def DestroyArray (T : TreeOps) (m : MappedEngine) (index : ArrayIndex) :
    Except Fault MappedEngine :=
  if ¬ IsIndexValid T m index then .error .invalid_argument
  else .ok (DeallocateIndex T m index)

/-- `EngineImpl::SetArraySize` (lines 399-404). -/
def SetArraySize (T : TreeOps) (m : MappedEngine) (index : ArrayIndex) (size : Nat) :
    Except Fault MappedEngine :=
  if ¬ IsIndexValid T m index then .error .invalid_argument
  else
    let entry := GetIndexEntry T m index
    let r := ResizeIndexEntry T m entry size
    .ok (SetIndexEntry T r.1 index r.2)

/-- Engine state after a call of the facade that started in state `m`. -/
def stateAfter (m : MappedEngine) : Except Fault MappedEngine → MappedEngine
  | .ok m1 => m1
  | .error _ => m

/-- The freelist of a class, walked from `free_block_head[block_type]`. -/
def freeList (m : MappedEngine) (block_type : BlockType) : Option (List Nat) :=
  freeListFrom m.mem (m.size / 8 + 1) (free_block_head m block_type)

/-- A new, empty backing file. -/
def fresh : MappedEngine := ⟨0, fun _ => 0⟩

/-- The store after `Format()` on a new file. -/
def formatted : MappedEngine := Format fresh

/-- The store after `Format()` and `n` calls of `CreateArray()`. -/
def created (T : TreeOps) : Nat → MappedEngine
  | 0 => formatted
  | n + 1 => (CreateArray T (created T n)).1

/-- The store after `Format()`, two calls of `CreateArray()` (the second one
returns the handle 1) and `SetArraySize(1, 16)`: array 1 is the L16 block at
file offset 256. -/
def sized16 (T : TreeOps) : MappedEngine :=
  stateAfter (created T 2) (SetArraySize T (created T 2) ⟨1⟩ 16)

end Mapped

/-! ## Basic facts -/

theorem Get64_lt (mem : Nat → Byte) (offset : Nat) : Get64 mem offset < U64 := by
  have h0 := (mem offset).isLt
  have h1 := (mem (offset + 1)).isLt
  have h2 := (mem (offset + 2)).isLt
  have h3 := (mem (offset + 3)).isLt
  have h4 := (mem (offset + 4)).isLt
  have h5 := (mem (offset + 5)).isLt
  have h6 := (mem (offset + 6)).isLt
  have h7 := (mem (offset + 7)).isLt
  unfold Get64 U64
  omega

theorem GetIndexEntry_array_size_lt (T : TreeOps) (s : Engine) (index : ArrayIndex) :
    (GetIndexEntry T s index).array_size < U64 :=
  Get64_lt _ _

theorem rangeRejected_of_sum_eq (array_size offset size : Nat)
    (h : offset + size = array_size) (hlt : array_size < U64) :
    rangeRejected array_size offset size = true := by
  have hm : (offset + size) % U64 = offset + size := Nat.mod_eq_of_lt (by omega)
  simp only [rangeRejected, hm, Bool.or_eq_true, decide_eq_true_eq]
  right
  omega

theorem rangeRejected_of_sum_gt (array_size offset size : Nat)
    (h : array_size < offset + size) (hlt : offset + size < U64) :
    rangeRejected array_size offset size = true := by
  have hm : (offset + size) % U64 = offset + size := Nat.mod_eq_of_lt hlt
  simp only [rangeRejected, hm, Bool.or_eq_true, decide_eq_true_eq]
  right
  omega

theorem GetBlockType_eq_L8_iff (n : Nat) : GetBlockType n = .L8 ↔ n ≤ 8 := by
  unfold GetBlockType
  split_ifs <;> simp <;> omega

theorem GetBlockType_eq_L4096Plus_iff (n : Nat) : GetBlockType n = .L4096Plus ↔ 4096 < n := by
  unfold GetBlockType
  split_ifs <;> simp <;> omega

theorem GetBlockType_ne_L4096Plus (n : Nat) (h : n ≤ 4096) : GetBlockType n ≠ .L4096Plus :=
  fun hc => by have := (GetBlockType_eq_L4096Plus_iff n).1 hc; omega

theorem toNat_lt_of_ne_L4096Plus (t : BlockType) (h : t ≠ .L4096Plus) :
    t.toNat < BlockType.L4096Plus.toNat := by
  cases t <;> simp [BlockType.toNat] at h ⊢

theorem stateAfter_of_raised (s : Engine) (r : Except Fault Engine) (f : Fault)
    (h : raised r = some f) : stateAfter s r = s := by
  cases r with
  | error e => rfl
  | ok s1 => simp [raised] at h

theorem IsIndexValid_zero (T : TreeOps) (s : Engine) : IsIndexValid T s ⟨0⟩ = false := by
  simp [IsIndexValid]

theorem IsIndexValid_iff (T : TreeOps) (s : Engine) (index : ArrayIndex) :
    IsIndexValid T s index = true ↔
      index.value ≠ 0 ∧
      index.value * index_entry_size < s.static_metadata.index_table_entry.array_size ∧
      (GetIndexEntry T s index).array_size ≠ free_entry_array_size := by
  simp [IsIndexValid, and_assoc]

/-! ## Bytes of the file -/

theorem Set64_apply_of_lt (mem : Nat → Byte) (off v a : Nat) (h : a < off) :
    Set64 mem off v a = mem a := by
  simp [Set64]; intro h1; omega

theorem Set64_apply_of_ge (mem : Nat → Byte) (off v a : Nat) (h : off + 8 ≤ a) :
    Set64 mem off v a = mem a := by
  simp [Set64]; intro h1 h2; omega

theorem Set64_apply_in (mem : Nat → Byte) (off v k : Nat) (h : k < 8) :
    Set64 mem off v (off + k) = byteOf v k := by
  simp [Set64, h]

theorem Get64_congr (m1 m2 : Nat → Byte) (a : Nat) (h : ∀ k, k < 8 → m1 (a + k) = m2 (a + k)) :
    Get64 m1 a = Get64 m2 a := by
  unfold Get64
  have h0 := h 0 (by omega)
  simp only [Nat.add_zero] at h0
  rw [h0, h 1 (by omega), h 2 (by omega), h 3 (by omega), h 4 (by omega), h 5 (by omega),
    h 6 (by omega), h 7 (by omega)]

theorem Get64_Set64_same (mem : Nat → Byte) (off v : Nat) :
    Get64 (Set64 mem off v) off = v % U64 := by
  have e0 : Set64 mem off v off = byteOf v 0 := by simpa using Set64_apply_in mem off v 0 (by omega)
  unfold Get64
  rw [e0, Set64_apply_in mem off v 1 (by omega), Set64_apply_in mem off v 2 (by omega),
    Set64_apply_in mem off v 3 (by omega), Set64_apply_in mem off v 4 (by omega),
    Set64_apply_in mem off v 5 (by omega), Set64_apply_in mem off v 6 (by omega),
    Set64_apply_in mem off v 7 (by omega)]
  simp only [byteOf, U64]
  norm_num
  omega

theorem Get64_Set64_of_disjoint (mem : Nat → Byte) (off v a : Nat)
    (h : a + 8 ≤ off ∨ off + 8 ≤ a) : Get64 (Set64 mem off v) a = Get64 mem a := by
  apply Get64_congr
  intro k hk
  rcases h with h | h
  · exact Set64_apply_of_lt _ _ _ _ (by omega)
  · exact Set64_apply_of_ge _ _ _ _ (by omega)

theorem byteOf_Get64 (mem : Nat → Byte) (off k : Nat) (hk : k < 8) :
    byteOf (Get64 mem off) k = mem (off + k) := by
  have h0 := (mem off).isLt
  have h1 := (mem (off + 1)).isLt
  have h2 := (mem (off + 2)).isLt
  have h3 := (mem (off + 3)).isLt
  have h4 := (mem (off + 4)).isLt
  have h5 := (mem (off + 5)).isLt
  have h6 := (mem (off + 6)).isLt
  have h7 := (mem (off + 7)).isLt
  apply Fin.ext
  unfold byteOf Get64
  interval_cases k <;> norm_num <;> omega

theorem Set64_Get64_self (mem : Nat → Byte) (off : Nat) :
    Set64 mem off (Get64 mem off) = mem := by
  funext a
  unfold Set64
  split_ifs with h
  · have := byteOf_Get64 mem off (a - off) (by omega)
    rw [this]
    congr 1
    omega
  · rfl

theorem SetEntry_GetEntry_self (mem : Nat → Byte) (off : Nat) :
    SetEntry mem off (GetEntry mem off) = mem := by
  unfold SetEntry GetEntry
  simp only
  rw [Set64_Get64_self, Set64_Get64_self]

theorem GetEntry_SetEntry_array_size (mem : Nat → Byte) (off : Nat) (e : IndexEntry) :
    (GetEntry (SetEntry mem off e) off).array_size = e.array_size % U64 := by
  unfold GetEntry SetEntry
  simp only
  rw [Get64_Set64_of_disjoint _ _ _ _ (by omega), Get64_Set64_same]

/-! ## What the resizer leaves alone -/

theorem AllocateBlock_index_table_entry (s : Engine) (t : BlockType) :
    (AllocateBlock s t).1.static_metadata.index_table_entry
      = s.static_metadata.index_table_entry := by
  unfold AllocateBlock
  dsimp only
  split_ifs <;>
    simp [setFreeBlockHead, InitializeCluster, InitializeClusterSection, ExtendFileByOneCluster,
      SetSize]

theorem reclass_index_table_entry (s : Engine) (entry : IndexEntry) (f t : BlockType)
    (o n : Nat) :
    (ResizeIndexEntry.reclass s entry f t o n).1.static_metadata.index_table_entry
      = s.static_metadata.index_table_entry := by
  unfold ResizeIndexEntry.reclass
  dsimp only
  split_ifs <;>
    simp [DeallocateBlock, setFreeBlockHead, AllocateBlock_index_table_entry]

theorem ResizeL4096PlusIndexEntry_spec (T : TreeOps) (hT : T.ResizeSetsSize) (s : Engine)
    (entry : IndexEntry) (n : Nat) :
    (ResizeL4096PlusIndexEntry T s entry n).2.array_size = n ∧
    (ResizeL4096PlusIndexEntry T s entry n).1.static_metadata.index_table_entry
      = s.static_metadata.index_table_entry := by
  unfold ResizeL4096PlusIndexEntry
  split_ifs
  · exact ⟨rfl, rfl⟩
  · exact hT s entry n

theorem ResizeIndexEntry_spec (T : TreeOps) (hT : T.ResizeSetsSize) (s : Engine)
    (entry : IndexEntry) (n : Nat) :
    (ResizeIndexEntry T s entry n).2.array_size = n ∧
    (ResizeIndexEntry T s entry n).1.static_metadata.index_table_entry
      = s.static_metadata.index_table_entry := by
  unfold ResizeIndexEntry
  dsimp only
  by_cases h1 : GetBlockType entry.array_size = GetBlockType n
  · rw [if_pos h1]
    by_cases h2 : GetBlockType entry.array_size ≠ .L4096Plus
    · rw [if_pos h2]
      exact ⟨rfl, rfl⟩
    · rw [if_neg h2]
      exact ResizeL4096PlusIndexEntry_spec T hT s entry n
  · rw [if_neg h1]
    by_cases hP : GetBlockType entry.array_size = .L4096Plus <;>
      by_cases hN : GetBlockType n = .L4096Plus <;>
      simp only [hP, hN, if_true, if_false]
    · exact absurd (hP.trans hN.symm) h1
    · refine ⟨trivial, ?_⟩
      rw [reclass_index_table_entry, (ResizeL4096PlusIndexEntry_spec T hT _ _ _).2]
    · refine ⟨(ResizeL4096PlusIndexEntry_spec T hT _ _ _).1, ?_⟩
      rw [(ResizeL4096PlusIndexEntry_spec T hT _ _ _).2, reclass_index_table_entry]
    · refine ⟨trivial, ?_⟩
      rw [reclass_index_table_entry]

theorem plainOps_ResizeSetsSize : plainOps.ResizeSetsSize := by
  intro s entry new_size
  exact ⟨rfl, rfl⟩

/-! ## Below the tree class the iterator is not consulted -/

theorem GetIndexEntryOffset_small (T T1 : TreeOps) (s : Engine) (index : ArrayIndex)
    (hsmall : s.static_metadata.index_table_entry.array_size ≤ 4096) :
    GetIndexEntryOffset T s index = GetIndexEntryOffset T1 s index := by
  unfold GetIndexEntryOffset
  simp only [if_pos (toNat_lt_of_ne_L4096Plus _ (GetBlockType_ne_L4096Plus _ hsmall))]

theorem GetIndexEntry_small (T T1 : TreeOps) (s : Engine) (index : ArrayIndex)
    (hsmall : s.static_metadata.index_table_entry.array_size ≤ 4096) :
    GetIndexEntry T s index = GetIndexEntry T1 s index := by
  unfold GetIndexEntry
  rw [GetIndexEntryOffset_small T T1 s index hsmall]

theorem SetIndexEntry_small (T T1 : TreeOps) (s : Engine) (index : ArrayIndex) (e : IndexEntry)
    (hsmall : s.static_metadata.index_table_entry.array_size ≤ 4096) :
    SetIndexEntry T s index e = SetIndexEntry T1 s index e := by
  unfold SetIndexEntry
  rw [GetIndexEntryOffset_small T T1 s index hsmall]

theorem IsIndexValid_small (T T1 : TreeOps) (s : Engine) (index : ArrayIndex)
    (hsmall : s.static_metadata.index_table_entry.array_size ≤ 4096) :
    IsIndexValid T s index = IsIndexValid T1 s index := by
  unfold IsIndexValid
  rw [GetIndexEntry_small T T1 s index hsmall]

theorem ResizeIndexEntry_small (T T1 : TreeOps) (s : Engine) (e : IndexEntry) (n : Nat)
    (he : e.array_size ≤ 4096) (hn : n ≤ 4096) :
    ResizeIndexEntry T s e n = ResizeIndexEntry T1 s e n := by
  have h1 := GetBlockType_ne_L4096Plus _ he
  have h2 := GetBlockType_ne_L4096Plus _ hn
  unfold ResizeIndexEntry
  simp only [h1, h2, if_false, ne_eq, not_false_eq_true, if_true]

theorem ResizeIndexEntry_small_spec (T : TreeOps) (s : Engine) (e : IndexEntry) (n : Nat)
    (he : e.array_size ≤ 4096) (hn : n ≤ 4096) :
    (ResizeIndexEntry T s e n).2.array_size = n ∧
    (ResizeIndexEntry T s e n).1.static_metadata.index_table_entry
      = s.static_metadata.index_table_entry := by
  rw [ResizeIndexEntry_small T plainOps s e n he hn]
  exact ResizeIndexEntry_spec plainOps plainOps_ResizeSetsSize s e n

theorem CreateArray_small (T T1 : TreeOps) (s : Engine)
    (hsmall : s.static_metadata.index_table_entry.array_size ≤ 2048) :
    CreateArray T s = CreateArray T1 s := by
  have hnew : (s.static_metadata.index_table_entry.array_size
      + min s.static_metadata.index_table_entry.array_size cluster_size) % U64 ≤ 4096 := by
    unfold cluster_size U64
    omega
  have hext : ExtendIndexTable T s = ExtendIndexTable T1 s ∧
      (ExtendIndexTable T1 s).1.static_metadata.index_table_entry.array_size ≤ 4096 := by
    unfold ExtendIndexTable
    dsimp only
    obtain ⟨hsz, -⟩ := ResizeIndexEntry_small_spec T1 s s.static_metadata.index_table_entry _
      (by omega) hnew
    rw [ResizeIndexEntry_small T T1 s _ _ (by omega) hnew]
    unfold InitializeIndexEntryRange
    dsimp only
    rw [GetIndexEntryOffset_small T T1 _ _ (by simp only; rw [hsz]; exact hnew)]
    exact ⟨rfl, by simp only [InitializeIndexEntry]; rw [hsz]; exact hnew⟩
  unfold CreateArray AllocateIndex
  dsimp only
  rw [hext.1]
  by_cases hh : s.static_metadata.free_index_head.value = free_index_tail.value
  · simp only [if_pos hh]
    rw [GetIndexEntry_small T T1 _ _ hext.2, Prod.mk.injEq]
    exact ⟨SetIndexEntry_small T T1 _ _ _ hext.2, rfl⟩
  · simp only [if_neg hh]
    have hs : s.static_metadata.index_table_entry.array_size ≤ 4096 := by omega
    rw [GetIndexEntry_small T T1 _ _ hs, Prod.mk.injEq]
    exact ⟨SetIndexEntry_small T T1 _ _ _ hs, rfl⟩

theorem SetArraySize_small (T T1 : TreeOps) (s : Engine) (index : ArrayIndex) (n : Nat)
    (hsmall : s.static_metadata.index_table_entry.array_size ≤ 4096)
    (he : (GetIndexEntry T1 s index).array_size ≤ 4096) (hn : n ≤ 4096) :
    SetArraySize T s index n = SetArraySize T1 s index n := by
  unfold SetArraySize
  dsimp only
  rw [IsIndexValid_small T T1 s index hsmall, GetIndexEntry_small T T1 s index hsmall,
    ResizeIndexEntry_small T T1 s _ n he hn]
  obtain ⟨-, htab⟩ := ResizeIndexEntry_small_spec T1 s (GetIndexEntry T1 s index) n he hn
  rw [SetIndexEntry_small T T1 _ _ _ (by rw [htab]; exact hsmall)]

theorem WriteArray_small (T T1 : TreeOps) (s : Engine) (index : ArrayIndex) (data : Nat → Byte)
    (size offset : Nat)
    (hsmall : s.static_metadata.index_table_entry.array_size ≤ 4096)
    (he : (GetIndexEntry T1 s index).array_size ≤ 4096) :
    WriteArray T s index data size offset = WriteArray T1 s index data size offset := by
  have h1 := toNat_lt_of_ne_L4096Plus _ (GetBlockType_ne_L4096Plus _ he)
  unfold WriteArray
  dsimp only
  rw [IsIndexValid_small T T1 s index hsmall, GetIndexEntry_small T T1 s index hsmall]
  simp only [h1, if_true, SetIndexEntry_small T T1 s index _ hsmall]

theorem ReadArray_small (T T1 : TreeOps) (s : Engine) (index : ArrayIndex) (offset size : Nat)
    (data : Nat → Byte)
    (hsmall : s.static_metadata.index_table_entry.array_size ≤ 4096)
    (he : (GetIndexEntry T1 s index).array_size ≤ 4096) :
    ReadArray T s index offset size data = ReadArray T1 s index offset size data := by
  have h1 := toNat_lt_of_ne_L4096Plus _ (GetBlockType_ne_L4096Plus _ he)
  unfold ReadArray
  dsimp only
  rw [IsIndexValid_small T T1 s index hsmall, GetIndexEntry_small T T1 s index hsmall]
  simp only [h1, if_true]

theorem GetArraySize_small (T T1 : TreeOps) (s : Engine) (index : ArrayIndex)
    (hsmall : s.static_metadata.index_table_entry.array_size ≤ 4096) :
    GetArraySize T s index = GetArraySize T1 s index := by
  unfold GetArraySize
  rw [IsIndexValid_small T T1 s index hsmall, GetIndexEntry_small T T1 s index hsmall]

theorem bytesRead_small (T T1 : TreeOps) (s : Engine) (index : ArrayIndex) (offset size : Nat)
    (hsmall : s.static_metadata.index_table_entry.array_size ≤ 4096)
    (he : (GetIndexEntry T1 s index).array_size ≤ 4096) :
    bytesRead T s index offset size = bytesRead T1 s index offset size := by
  unfold bytesRead
  rw [ReadArray_small T T1 s index offset size _ hsmall he]

theorem DestroyArray_small (T T1 : TreeOps) (s : Engine) (index : ArrayIndex)
    (hsmall : s.static_metadata.index_table_entry.array_size ≤ 4096)
    (he : (GetIndexEntry T1 s index).array_size ≤ 4096) :
    DestroyArray T s index = DestroyArray T1 s index := by
  obtain ⟨-, htab⟩ := ResizeIndexEntry_small_spec T1 s (GetIndexEntry T1 s index) 0 he
    (by omega)
  have hd : DeallocateIndex T s index = DeallocateIndex T1 s index := by
    unfold DeallocateIndex
    dsimp only
    rw [GetIndexEntry_small T T1 s index hsmall,
      ResizeIndexEntry_small T T1 s _ 0 he (by omega)]
    apply SetIndexEntry_small
    dsimp only
    rw [htab]
    exact hsmall
  unfold DestroyArray
  rw [IsIndexValid_small T T1 s index hsmall, hd]

theorem twoCreated_eq (T : TreeOps) : twoCreated T = twoCreated plainOps := by
  unfold twoCreated
  rw [CreateArray_small T plainOps formatted (by decide!),
    CreateArray_small T plainOps _ (by decide!)]

theorem sized_eq (T : TreeOps) (n : Nat) (hn : n ≤ 4096) : sized T n = sized plainOps n := by
  unfold sized
  rw [twoCreated_eq T,
    SetArraySize_small T plainOps (twoCreated plainOps) ⟨1⟩ n (by decide!) (by decide!) hn]

theorem written8_eq (T : TreeOps) : written8 T = written8 plainOps := by
  unfold written8
  rw [sized_eq T 8 (by decide),
    WriteArray_small T plainOps (sized plainOps 8) ⟨1⟩ bytes8192 7 0 (by decide!) (by decide!)]

theorem grown600_eq (T : TreeOps) : grown600 T = grown600 plainOps := by
  unfold grown600
  rw [written8_eq T,
    SetArraySize_small T plainOps (written8 plainOps) ⟨1⟩ 600 (by decide!) (by decide!)
      (by decide)]

/-! ## C1, C2, C3: the range test of `ReadArray` and `WriteArray` -/

/-- C2: the out-of-range test of the code rejects a request that touches the
last byte.  For every valid index, every `size > 0` and every `offset` with
`offset + size` equal to the array size, both `ReadArray` and `WriteArray`
throw invalid-argument. -/
theorem ReadArray_WriteArray_reject_last_byte (T : TreeOps) (s : Engine) (index : ArrayIndex)
    (offset size : Nat) (data : Nat → Byte)
    (hvalid : IsIndexValid T s index = true) (hsize : 0 < size)
    (hend : offset + size = (GetIndexEntry T s index).array_size) :
    ReadArray T s index offset size data = .error .invalid_argument ∧
    WriteArray T s index data size offset = .error .invalid_argument := by
  have hr := rangeRejected_of_sum_eq _ offset size hend
    (GetIndexEntry_array_size_lt T s index)
  have hne : size ≠ 0 := by omega
  constructor
  · simp [ReadArray, hvalid, hne, hr]
  · simp [WriteArray, hvalid, hne, hr]

/-- C2, at a concrete request: handle 1 is valid, its array has 100 bytes, and
reading or writing its last byte (offset 99, size 1) is rejected. -/
theorem ReadArray_WriteArray_reject_last_byte_witness :
    (IsIndexValid plainOps (sized plainOps 100) ⟨1⟩ = true ∧ 0 < 1 ∧
      99 + 1 = (GetIndexEntry plainOps (sized plainOps 100) ⟨1⟩).array_size) ∧
    ReadArray plainOps (sized plainOps 100) ⟨1⟩ 99 1 letters = .error .invalid_argument ∧
    WriteArray plainOps (sized plainOps 100) ⟨1⟩ letters 1 99 = .error .invalid_argument :=
  ⟨⟨by decide!, by decide, by decide!⟩,
    ReadArray_WriteArray_reject_last_byte plainOps (sized plainOps 100) ⟨1⟩ 99 1 letters
      (by decide!) (by decide) (by decide!)⟩

theorem round_trip_fails_plain :
    IsIndexValid plainOps (sized plainOps 8) ⟨1⟩ = true ∧
    (GetArraySize plainOps (sized plainOps 8) ⟨1⟩).toOption = some 8 ∧
    raised (WriteArray plainOps (sized plainOps 8) ⟨1⟩ letters 8 0) = some .invalid_argument ∧
    raised (ReadArray plainOps (sized plainOps 8) ⟨1⟩ 0 8 (fun _ => 0))
      = some .invalid_argument ∧
    (GetIndexEntry plainOps (sized plainOps 8) ⟨1⟩).data = 0 := by
  decide!

/-- C1: the write/read round trip fails for a buffer that ends at the last byte
of the array.  After `Format()` on a fresh file, two `CreateArray()` and
`SetArraySize(1, 8)` the handle 1 is valid and `GetArraySize(1)` is 8, yet
`WriteArray(1, "ABCDEFGH", 8, 0)` throws invalid-argument, the following
`ReadArray(1, 0, 8, out)` throws as well, and the array still holds eight zero
bytes. -/
theorem WriteArray_whole_array_round_trip_fails (T : TreeOps) :
    IsIndexValid T (sized T 8) ⟨1⟩ = true ∧
    (GetArraySize T (sized T 8) ⟨1⟩).toOption = some 8 ∧
    raised (WriteArray T (sized T 8) ⟨1⟩ letters 8 0) = some .invalid_argument ∧
    raised (ReadArray T (sized T 8) ⟨1⟩ 0 8 (fun _ => 0)) = some .invalid_argument ∧
    (GetIndexEntry T (stateAfter (sized T 8) (WriteArray T (sized T 8) ⟨1⟩ letters 8 0))
      ⟨1⟩).data = 0 := by
  have htab : (sized plainOps 8).static_metadata.index_table_entry.array_size ≤ 4096 := by
    decide!
  have hent : (GetIndexEntry plainOps (sized plainOps 8) ⟨1⟩).array_size ≤ 4096 := by decide!
  obtain ⟨h1, h2, h3, h4, h5⟩ := round_trip_fails_plain
  rw [sized_eq T 8 (by decide), IsIndexValid_small T plainOps _ _ htab,
    GetArraySize_small T plainOps _ _ htab, WriteArray_small T plainOps _ _ _ _ _ htab hent,
    ReadArray_small T plainOps _ _ _ _ _ htab hent]
  refine ⟨h1, h2, h3, h4, ?_⟩
  rw [stateAfter_of_raised _ _ _ h3, GetIndexEntry_small T plainOps _ _ htab]
  exact h5

theorem wrapping_range_plain :
    IsIndexValid plainOps (sized plainOps 16) ⟨1⟩ = true ∧
    GetIndexEntry plainOps (sized plainOps 16) ⟨1⟩ = ⟨16, 256⟩ ∧
    raised (WriteArray plainOps (sized plainOps 16) ⟨1⟩ allOnes (2 ^ 64 - 1) 1) = none ∧
    raised (ReadArray plainOps (sized plainOps 16) ⟨1⟩ 1 (2 ^ 64 - 1) (fun _ => 0)) = none ∧
    (sized plainOps 16).mem 272 = 32 ∧
    (stateAfter (sized plainOps 16)
      (WriteArray plainOps (sized plainOps 16) ⟨1⟩ allOnes (2 ^ 64 - 1) 1)).mem 272 = 255 ∧
    (freeList (sized plainOps 16) .L16).isSome = true ∧
    freeList (stateAfter (sized plainOps 16)
      (WriteArray plainOps (sized plainOps 16) ⟨1⟩ allOnes (2 ^ 64 - 1) 1)) .L16 = none := by
  decide!

/-- C3: a request whose `offset + size` wraps around `2^64` is not rejected.
Array 1 has 16 bytes in the block at file offset 256.  `WriteArray(1, buf,
2^64 - 1, 1)` and `ReadArray(1, 1, 2^64 - 1, out)` do not throw; the write
changes the byte at file offset 272, which lies behind the array (it is the
next-pointer of the free L16 block 272, so the L16 freelist no longer reaches
its tail). -/
theorem WriteArray_wrapping_range_accepted (T : TreeOps) :
    IsIndexValid T (sized T 16) ⟨1⟩ = true ∧
    GetIndexEntry T (sized T 16) ⟨1⟩ = ⟨16, 256⟩ ∧
    raised (WriteArray T (sized T 16) ⟨1⟩ allOnes (2 ^ 64 - 1) 1) = none ∧
    raised (ReadArray T (sized T 16) ⟨1⟩ 1 (2 ^ 64 - 1) (fun _ => 0)) = none ∧
    (sized T 16).mem 272 = 32 ∧
    (stateAfter (sized T 16)
      (WriteArray T (sized T 16) ⟨1⟩ allOnes (2 ^ 64 - 1) 1)).mem 272 = 255 ∧
    (freeList (sized T 16) .L16).isSome = true ∧
    freeList (stateAfter (sized T 16)
      (WriteArray T (sized T 16) ⟨1⟩ allOnes (2 ^ 64 - 1) 1)) .L16 = none := by
  have htab : (sized plainOps 16).static_metadata.index_table_entry.array_size ≤ 4096 := by
    decide!
  have hent : (GetIndexEntry plainOps (sized plainOps 16) ⟨1⟩).array_size ≤ 4096 := by decide!
  rw [sized_eq T 16 (by decide), IsIndexValid_small T plainOps _ _ htab,
    GetIndexEntry_small T plainOps _ _ htab, WriteArray_small T plainOps _ _ _ _ _ htab hent,
    ReadArray_small T plainOps _ _ _ _ _ htab hent]
  exact wrapping_range_plain

/-! ## C4: the layout after `Format` -/

theorem Format_header (s : Engine) :
    (Format s).size = 4096 ∧ (Format s).static_metadata.file_size = 4096 ∧
    (Format s).static_metadata.index_table_entry = ⟨8, 0⟩ ∧
    (Format s).static_metadata.free_index_head = ⟨0⟩ ∧
    (Format s).static_metadata.user_metadata_size = 0 := by
  simp [Format, InitializeClusterSection, setFreeBlockHead, SetSize, cluster_size, free_index_tail]

theorem loop_eq_threadBlocks (bs co b e : Nat) (hbs : 0 < bs) (he : e + bs ≤ U64) :
    ∀ (j fuel : Nat) (mem : Nat → Byte) (next : Nat), b + j * bs < e → j < fuel →
      InitializeClusterSection.loop bs co b e fuel (b + j * bs) mem next
        = (threadBlocks co b bs j mem next, b) := by
  intro j
  induction j with
  | zero =>
    intro fuel mem next hlt hf
    obtain ⟨f, rfl⟩ : ∃ f, fuel = f + 1 := ⟨fuel - 1, by omega⟩
    simp only [Nat.zero_mul, Nat.add_zero] at hlt ⊢
    rw [InitializeClusterSection.loop, if_pos ⟨le_refl _, hlt⟩]
    cases f with
    | zero => rfl
    | succ f' =>
      rw [InitializeClusterSection.loop, if_neg]
      · rfl
      · unfold U64 at he ⊢
        intro hc
        omega
  | succ j ih =>
    intro fuel mem next hlt hf
    obtain ⟨f, rfl⟩ : ∃ f, fuel = f + 1 := ⟨fuel - 1, by omega⟩
    have hmul : (j + 1) * bs = j * bs + bs := Nat.succ_mul j bs
    rw [InitializeClusterSection.loop, if_pos ⟨by omega, hlt⟩]
    have hstep : (b + (j + 1) * bs + U64 - bs) % U64 = b + j * bs := by
      unfold U64 at he ⊢
      omega
    rw [hstep, ih f _ _ (by omega) (by omega)]
    rfl

theorem InitializeClusterSection_eq (s : Engine) (block_type : BlockType) (co b e j : Nat)
    (he : e + block_size_table block_type ≤ U64) (hbs : 0 < block_size_table block_type)
    (hj : b + (j + 1) * block_size_table block_type = e) :
    InitializeClusterSection s block_type co b e =
      (setFreeBlockHead (Engine.mk s.size s.static_metadata
          (threadBlocks co b (block_size_table block_type) j s.mem
            (s.static_metadata.free_block_head block_type))) block_type b, b) := by
  have hjle : j ≤ j * block_size_table block_type := Nat.le_mul_of_pos_right j hbs
  have hmul : (j + 1) * block_size_table block_type
      = j * block_size_table block_type + block_size_table block_type := Nat.succ_mul _ _
  have hstart : (e + U64 - block_size_table block_type) % U64
      = b + j * block_size_table block_type := by
    unfold U64 at he ⊢
    omega
  unfold InitializeClusterSection
  simp only [hstart]
  rw [loop_eq_threadBlocks _ co b e hbs he j (e + 1) _ _ (by omega) (by omega)]

theorem threadBlocks_apply_frame (co b bs : Nat) :
    ∀ (j : Nat) (mem : Nat → Byte) (next a : Nat),
      (a < co + b ∨ co + (b + j * bs) + 8 ≤ a) →
      threadBlocks co b bs j mem next a = mem a := by
  intro j
  induction j with
  | zero =>
    intro mem next a h
    rcases h with h | h
    · exact Set64_apply_of_lt _ _ _ _ h
    · exact Set64_apply_of_ge _ _ _ _ (by omega)
  | succ j ih =>
    intro mem next a h
    have hmul : (j + 1) * bs = j * bs + bs := Nat.succ_mul j bs
    rw [threadBlocks, ih _ _ _ (by omega)]
    rcases h with h | h
    · exact Set64_apply_of_lt _ _ _ _ (by omega)
    · exact Set64_apply_of_ge _ _ _ _ (by omega)

theorem Get64_threadBlocks_frame (co b bs j : Nat) (mem : Nat → Byte) (next a : Nat)
    (h : a + 8 ≤ co + b ∨ co + (b + j * bs) + 8 ≤ a) :
    Get64 (threadBlocks co b bs j mem next) a = Get64 mem a := by
  apply Get64_congr
  intro k hk
  exact threadBlocks_apply_frame co b bs j mem next (a + k) (by omega)

theorem Get64_threadBlocks_link (co b bs : Nat) (hbs : 8 ≤ bs) :
    ∀ (j : Nat) (mem : Nat → Byte) (next i : Nat), i ≤ j → next < U64 → b + j * bs < U64 →
      Get64 (threadBlocks co b bs j mem next) (co + (b + i * bs))
        = if i < j then b + (i + 1) * bs else next := by
  intro j
  induction j with
  | zero =>
    intro mem next i hi hn _
    obtain rfl : i = 0 := by omega
    simp only [Nat.zero_mul, Nat.add_zero, threadBlocks, Nat.lt_irrefl, if_false]
    rw [Get64_Set64_same, Nat.mod_eq_of_lt hn]
  | succ j ih =>
    intro mem next i hi hn hb
    have hmul : (j + 1) * bs = j * bs + bs := Nat.succ_mul j bs
    rw [threadBlocks]
    by_cases hij : i = j + 1
    · subst hij
      rw [Get64_threadBlocks_frame _ _ _ _ _ _ _ (by omega), Get64_Set64_same,
        Nat.mod_eq_of_lt hn, if_neg (Nat.lt_irrefl _)]
    · rw [ih _ _ i (by omega) hb (by omega), if_pos (by omega : i < j + 1)]
      split_ifs with h
      · rfl
      · obtain rfl : i = j := by omega
        rfl

theorem IsFreeChain_blockList (mem : Nat → Byte) (b bs j : Nat) (hb : 0 < b)
    (hlink : ∀ i, i ≤ j → Get64 mem (b + i * bs) = if i < j then b + (i + 1) * bs else 0) :
    ∀ n i, i + n = j + 1 → IsFreeChain mem (if n = 0 then 0 else b + i * bs) (blockList b bs i n) := by
  intro n
  induction n with
  | zero => intro i _; simp [blockList, IsFreeChain, free_block_tail]
  | succ n ih =>
    intro i hi
    simp only [Nat.succ_ne_zero, if_false, blockList, IsFreeChain, free_block_tail, true_and]
    refine ⟨by omega, ?_⟩
    have := ih (i + 1) (by omega)
    rw [hlink i (by omega)]
    by_cases hn : n = 0
    · subst hn
      simpa [show ¬ i < j by omega] using this
    · simpa [hn, show i < j by omega] using this

theorem freeListFrom_of_chain (mem : Nat → Byte) :
    ∀ (l : List Nat) (head fuel : Nat), IsFreeChain mem head l → l.length ≤ fuel →
      freeListFrom mem fuel head = some l := by
  intro l
  induction l with
  | nil =>
    intro head fuel h _
    simp only [IsFreeChain] at h
    cases fuel <;> simp [freeListFrom, h]
  | cons x l ih =>
    intro head fuel h hf
    obtain ⟨rfl, hx, hrest⟩ := h
    obtain ⟨f, rfl⟩ : ∃ f, fuel = f + 1 := ⟨fuel - 1, by simp at hf; omega⟩
    rw [freeListFrom, if_neg hx, ih _ _ hrest (by simpa using hf)]
    rfl

theorem Format_mem_and_heads (s : Engine) :
    (Format s).mem = Format.mem s.mem ∧
    (Format s).static_metadata.free_block_head .L16 = 256 ∧
    (Format s).static_metadata.free_block_head .L32 = 512 ∧
    (Format s).static_metadata.free_block_head .L64 = 1024 ∧
    (Format s).static_metadata.free_block_head .L128 = 2048 ∧
    (Format s).static_metadata.free_block_head .L256 = 3072 ∧
    (Format s).static_metadata.free_block_head .L512 = 0 ∧
    (Format s).static_metadata.free_block_head .L1024 = 0 ∧
    (Format s).static_metadata.free_block_head .L2048 = 0 := by
  unfold Format
  simp only [InitializeClusterSection_eq _ .L16 0 256 512 15 (by decide) (by decide) (by decide),
    InitializeClusterSection_eq _ .L32 0 512 1024 15 (by decide) (by decide) (by decide),
    InitializeClusterSection_eq _ .L64 0 1024 2048 15 (by decide) (by decide) (by decide),
    InitializeClusterSection_eq _ .L128 0 2048 3072 7 (by decide) (by decide) (by decide),
    InitializeClusterSection_eq _ .L256 0 3072 4096 3 (by decide) (by decide) (by decide)]
  simp [setFreeBlockHead, Format.clearHeads, BlockType.toNat, free_block_tail, SetSize,
    block_size_table, Format.mem]

theorem Format_mem_link_L16 (m : Nat → Byte) (i : Nat) (hi : i ≤ 15) :
    Get64 (Format.mem m) (256 + i * 16) = if i < 15 then 256 + (i + 1) * 16 else 0 := by
  have h := Get64_threadBlocks_link 0 256 16 (by decide) 15 m 0 i hi (by decide) (by decide)
  rw [Nat.zero_add] at h
  unfold Format.mem
  rw [Get64_threadBlocks_frame _ _ _ _ _ _ _ (by omega),
    Get64_threadBlocks_frame _ _ _ _ _ _ _ (by omega),
    Get64_threadBlocks_frame _ _ _ _ _ _ _ (by omega),
    Get64_threadBlocks_frame _ _ _ _ _ _ _ (by omega), h]

theorem Format_mem_link_L32 (m : Nat → Byte) (i : Nat) (hi : i ≤ 15) :
    Get64 (Format.mem m) (512 + i * 32) = if i < 15 then 512 + (i + 1) * 32 else 0 := by
  have h := Get64_threadBlocks_link 0 512 32 (by decide) 15 (threadBlocks 0 256 16 15 m 0) 0 i hi
    (by decide) (by decide)
  rw [Nat.zero_add] at h
  unfold Format.mem
  rw [Get64_threadBlocks_frame _ _ _ _ _ _ _ (by omega),
    Get64_threadBlocks_frame _ _ _ _ _ _ _ (by omega),
    Get64_threadBlocks_frame _ _ _ _ _ _ _ (by omega), h]

theorem Format_mem_link_L64 (m : Nat → Byte) (i : Nat) (hi : i ≤ 15) :
    Get64 (Format.mem m) (1024 + i * 64) = if i < 15 then 1024 + (i + 1) * 64 else 0 := by
  have h := Get64_threadBlocks_link 0 1024 64 (by decide) 15
    (threadBlocks 0 512 32 15 (threadBlocks 0 256 16 15 m 0) 0) 0 i hi (by decide) (by decide)
  rw [Nat.zero_add] at h
  unfold Format.mem
  rw [Get64_threadBlocks_frame _ _ _ _ _ _ _ (by omega),
    Get64_threadBlocks_frame _ _ _ _ _ _ _ (by omega), h]

theorem Format_mem_link_L128 (m : Nat → Byte) (i : Nat) (hi : i ≤ 7) :
    Get64 (Format.mem m) (2048 + i * 128) = if i < 7 then 2048 + (i + 1) * 128 else 0 := by
  have h := Get64_threadBlocks_link 0 2048 128 (by decide) 7
    (threadBlocks 0 1024 64 15 (threadBlocks 0 512 32 15 (threadBlocks 0 256 16 15 m 0) 0) 0)
    0 i hi (by decide) (by decide)
  rw [Nat.zero_add] at h
  unfold Format.mem
  rw [Get64_threadBlocks_frame _ _ _ _ _ _ _ (by omega), h]

theorem Format_mem_link_L256 (m : Nat → Byte) (i : Nat) (hi : i ≤ 3) :
    Get64 (Format.mem m) (3072 + i * 256) = if i < 3 then 3072 + (i + 1) * 256 else 0 := by
  have h := Get64_threadBlocks_link 0 3072 256 (by decide) 3
    (threadBlocks 0 2048 128 7 (threadBlocks 0 1024 64 15 (threadBlocks 0 512 32 15
      (threadBlocks 0 256 16 15 m 0) 0) 0) 0) 0 i hi (by decide) (by decide)
  rw [Nat.zero_add] at h
  unfold Format.mem
  rw [h]

theorem freeListFrom_blockList (mem : Nat → Byte) (b bs j fuel : Nat) (hb : 0 < b)
    (hfuel : j + 1 ≤ fuel)
    (hlink : ∀ i, i ≤ j → Get64 mem (b + i * bs) = if i < j then b + (i + 1) * bs else 0) :
    freeListFrom mem fuel b = some (blockList b bs 0 (j + 1)) := by
  have h := IsFreeChain_blockList mem b bs j hb hlink (j + 1) 0 (by omega)
  simp only [Nat.succ_ne_zero, if_false, Nat.zero_mul, Nat.add_zero] at h
  have hlen : ∀ n i, (blockList b bs i n).length = n := by
    intro n
    induction n with
    | zero => intro i; rfl
    | succ n ih => intro i; simp [blockList, ih]
  exact freeListFrom_of_chain mem _ _ _ h (by rw [hlen]; exact hfuel)

/-- C4: the initial layout after `Format()`, whatever the file and the header
held before: the file size and `file_size` of the header are 4096, the index
table entry has `array_size` 8 and `data` 0, the index freelist is empty,
`user_metadata_size` is 0, and the block freelists walked from their heads to
the tail sentinel are L16 = 256, 272, ..., 496; L32 = 512, 544, ..., 992;
L64 = 1024, 1088, ..., 1984; L128 = 2048, 2176, ..., 2944; L256 = 3072, 3328,
3584, 3840; the freelists of L512, L1024 and L2048 are empty. -/
theorem Format_initial_layout (s : Engine) :
    (Format s).size = 4096 ∧
    (Format s).static_metadata.file_size = 4096 ∧
    (Format s).static_metadata.index_table_entry = ⟨8, 0⟩ ∧
    (Format s).static_metadata.free_index_head = free_index_tail ∧
    (Format s).static_metadata.user_metadata_size = 0 ∧
    freeList (Format s) .L16 = some [256, 272, 288, 304, 320, 336, 352, 368, 384, 400, 416,
      432, 448, 464, 480, 496] ∧
    freeList (Format s) .L32 = some [512, 544, 576, 608, 640, 672, 704, 736, 768, 800, 832,
      864, 896, 928, 960, 992] ∧
    freeList (Format s) .L64 = some [1024, 1088, 1152, 1216, 1280, 1344, 1408, 1472, 1536,
      1600, 1664, 1728, 1792, 1856, 1920, 1984] ∧
    freeList (Format s) .L128 = some [2048, 2176, 2304, 2432, 2560, 2688, 2816, 2944] ∧
    freeList (Format s) .L256 = some [3072, 3328, 3584, 3840] ∧
    freeList (Format s) .L512 = some [] ∧
    freeList (Format s) .L1024 = some [] ∧
    freeList (Format s) .L2048 = some [] := by
  obtain ⟨hsize, hfs, hte, hfi, hum⟩ := Format_header s
  obtain ⟨hmem, h16, h32, h64, h128, h256, h512, h1024, h2048⟩ := Format_mem_and_heads s
  refine ⟨hsize, hfs, hte, hfi, hum, ?_, ?_, ?_, ?_, ?_, ?_, ?_, ?_⟩
  · rw [freeList, hsize, hmem, h16]
    exact freeListFrom_blockList _ 256 16 15 _ (by decide) (by decide) (Format_mem_link_L16 _)
  · rw [freeList, hsize, hmem, h32]
    exact freeListFrom_blockList _ 512 32 15 _ (by decide) (by decide) (Format_mem_link_L32 _)
  · rw [freeList, hsize, hmem, h64]
    exact freeListFrom_blockList _ 1024 64 15 _ (by decide) (by decide) (Format_mem_link_L64 _)
  · rw [freeList, hsize, hmem, h128]
    exact freeListFrom_blockList _ 2048 128 7 _ (by decide) (by decide) (Format_mem_link_L128 _)
  · rw [freeList, hsize, hmem, h256]
    exact freeListFrom_blockList _ 3072 256 3 _ (by decide) (by decide) (Format_mem_link_L256 _)
  · rw [freeList, hsize, h512]; rfl
  · rw [freeList, hsize, h1024]; rfl
  · rw [freeList, hsize, h2048]; rfl

/-! ## C5: the first handle -/

theorem AllocateIndex_of_initial_header (T : TreeOps) (s : Engine)
    (hhead : s.static_metadata.free_index_head = ⟨0⟩)
    (hsize : s.static_metadata.index_table_entry.array_size = 8) :
    (AllocateIndex T s).2 = ⟨0⟩ := by
  simp [AllocateIndex, ExtendIndexTable, InitializeIndexEntryRange, InitializeIndexEntry,
    hhead, hsize, free_index_tail, cluster_size, index_entry_size, U64,
    InitializeIndexEntry.loop]

/-- C5: on a freshly formatted store (whatever the file held before `Format()`)
the first `CreateArray()` returns the handle with value 0, the tail sentinel of
the index freelist, which `IsIndexValid` rejects: `ExtendIndexTable` grows the
table from 8 to 16 bytes and threads the indices from `8 / 16 = 0` up to
`16 / 16 = 1`, that is, index 0 alone. -/
theorem CreateArray_after_Format_returns_zero (T : TreeOps) (s : Engine) :
    (CreateArray T (Format s)).2 = ⟨0⟩ ∧
    IsIndexValid T (CreateArray T (Format s)).1 (CreateArray T (Format s)).2 = false := by
  have h := Format_header s
  have h0 : (CreateArray T (Format s)).2 = ⟨0⟩ :=
    AllocateIndex_of_initial_header T (Format s) h.2.2.2.1 (by rw [h.2.2.1])
  exact ⟨h0, by rw [h0]; exact IsIndexValid_zero T _⟩

/-! ## C6: the load-time check -/

theorem block_size_table_GetBlockType_eq_iff (a : Nat) (h : a ≤ 4096) :
    block_size_table (GetBlockType a) = a ↔
      a ∈ [8, 16, 32, 64, 128, 256, 512, 1024, 2048, 4096] := by
  unfold GetBlockType
  split_ifs <;> simp [block_size_table] <;> omega

theorem LoadAndCheck_true_iff (M : Nat) (s : Engine) :
    LoadAndCheck M s = true ↔
      ((0 < s.size ∧ s.size % 4096 = 0) ∧
        s.static_metadata.file_size = s.size ∧
        (s.static_metadata.index_table_entry.array_size ∈
            [8, 16, 32, 64, 128, 256, 512, 1024, 2048, 4096] ∨
          (4096 < s.static_metadata.index_table_entry.array_size ∧
            s.static_metadata.index_table_entry.array_size % 4096 = 0)) ∧
        s.static_metadata.user_metadata_size ≤ M) := by
  have key := block_size_table_GetBlockType_eq_iff s.static_metadata.index_table_entry.array_size
  have small : s.static_metadata.index_table_entry.array_size ∈
      [8, 16, 32, 64, 128, 256, 512, 1024, 2048, 4096] →
      s.static_metadata.index_table_entry.array_size ≤ 4096 := by
    intro h; simp at h; omega
  unfold LoadAndCheck
  simp only [cluster_size]
  by_cases ha : s.static_metadata.index_table_entry.array_size > 4096
  · have hn : ¬ s.static_metadata.index_table_entry.array_size ∈
        [8, 16, 32, 64, 128, 256, 512, 1024, 2048, 4096] := fun h => by
      have := small h; omega
    simp only [ha, if_true]
    split_ifs with h1 h2 h3 h4 <;> simp_all <;> omega
  · have key2 := key (by omega)
    simp only [ha, if_false]
    split_ifs with h1 h2 h3 h4 <;> simp_all <;> omega

/-- C6: `LoadAndCheck()` returns true exactly when the four header checks hold:
the actual file size is a positive multiple of 4096, `file_size` of the header
equals it, the index table's `array_size` is one of the block sizes 8, 16, ...,
4096 or a multiple of 4096 above 4096, and `user_metadata_size` is at most
`max_user_metadata_size`; it returns false otherwise. -/
theorem LoadAndCheck_eq_true_iff_header_checks (max_user_metadata_size : Nat) (s : Engine) :
    (LoadAndCheck max_user_metadata_size s = true ↔
      ((0 < s.size ∧ s.size % 4096 = 0) ∧
        s.static_metadata.file_size = s.size ∧
        (s.static_metadata.index_table_entry.array_size ∈
            [8, 16, 32, 64, 128, 256, 512, 1024, 2048, 4096] ∨
          (4096 < s.static_metadata.index_table_entry.array_size ∧
            s.static_metadata.index_table_entry.array_size % 4096 = 0)) ∧
        s.static_metadata.user_metadata_size ≤ max_user_metadata_size)) ∧
    (LoadAndCheck max_user_metadata_size s = false ↔
      ¬ ((0 < s.size ∧ s.size % 4096 = 0) ∧
        s.static_metadata.file_size = s.size ∧
        (s.static_metadata.index_table_entry.array_size ∈
            [8, 16, 32, 64, 128, 256, 512, 1024, 2048, 4096] ∨
          (4096 < s.static_metadata.index_table_entry.array_size ∧
            s.static_metadata.index_table_entry.array_size % 4096 = 0)) ∧
        s.static_metadata.user_metadata_size ≤ max_user_metadata_size)) := by
  have h := LoadAndCheck_true_iff max_user_metadata_size s
  refine ⟨h, ?_⟩
  rw [← h]
  cases LoadAndCheck max_user_metadata_size s <;> simp

/-! ## C7: content prefix across a resize -/

theorem changes_prefix_plain :
    IsIndexValid plainOps (grown600 plainOps) ⟨1⟩ = true ∧
    GetIndexEntry plainOps (grown600 plainOps) ⟨1⟩ = ⟨600, 0⟩ ∧
    bytesRead plainOps (grown600 plainOps) ⟨1⟩ 0 8 = some [0, 32, 0, 0, 0, 0, 0, 0] ∧
    raised (SetArraySize plainOps (grown600 plainOps) ⟨1⟩ 300) = none ∧
    GetIndexEntry plainOps
      (stateAfter (grown600 plainOps) (SetArraySize plainOps (grown600 plainOps) ⟨1⟩ 300)) ⟨1⟩
      = ⟨300, 0⟩ ∧
    bytesRead plainOps
      (stateAfter (grown600 plainOps) (SetArraySize plainOps (grown600 plainOps) ⟨1⟩ 300)) ⟨1⟩
      0 8 = some [0, 0, 0, 0, 0, 0, 0, 0] := by
  decide!

/-- C7: a resize between two single-block classes can change the first bytes of
the array.  In the store `grown600`, reached from `Format()` on a fresh file by
public operations, array 1 has 600 bytes that start with `00 20 00 00 00 00 00
00`; after `SetArraySize(1, 300)` it has 300 bytes that start with eight zero
bytes.  Both blocks are the file offset 0, which `AllocateBlock` handed out for
a fresh cluster; `DeallocateBlock` of the old block then overwrites the first 8
bytes of the new one.  (Offset 0 lies inside the static header, whose fields
this embedding keeps apart from the file bytes.) -/
theorem SetArraySize_changes_prefix (T : TreeOps) :
    IsIndexValid T (grown600 T) ⟨1⟩ = true ∧
    GetIndexEntry T (grown600 T) ⟨1⟩ = ⟨600, 0⟩ ∧
    bytesRead T (grown600 T) ⟨1⟩ 0 8 = some [0, 32, 0, 0, 0, 0, 0, 0] ∧
    raised (SetArraySize T (grown600 T) ⟨1⟩ 300) = none ∧
    GetIndexEntry T (stateAfter (grown600 T) (SetArraySize T (grown600 T) ⟨1⟩ 300)) ⟨1⟩
      = ⟨300, 0⟩ ∧
    bytesRead T (stateAfter (grown600 T) (SetArraySize T (grown600 T) ⟨1⟩ 300)) ⟨1⟩ 0 8
      = some [0, 0, 0, 0, 0, 0, 0, 0] := by
  have htab : (grown600 plainOps).static_metadata.index_table_entry.array_size ≤ 4096 := by
    decide!
  have hent : (GetIndexEntry plainOps (grown600 plainOps) ⟨1⟩).array_size ≤ 4096 := by decide!
  have htab1 : (stateAfter (grown600 plainOps) (SetArraySize plainOps (grown600 plainOps) ⟨1⟩
      300)).static_metadata.index_table_entry.array_size ≤ 4096 := by
    decide!
  have hent1 : (GetIndexEntry plainOps (stateAfter (grown600 plainOps)
      (SetArraySize plainOps (grown600 plainOps) ⟨1⟩ 300)) ⟨1⟩).array_size ≤ 4096 := by
    decide!
  rw [grown600_eq T, IsIndexValid_small T plainOps _ _ htab,
    GetIndexEntry_small T plainOps _ _ htab, bytesRead_small T plainOps _ _ _ _ htab hent,
    SetArraySize_small T plainOps _ _ _ htab hent (by decide),
    GetIndexEntry_small T plainOps _ _ htab1, bytesRead_small T plainOps _ _ _ _ htab1 hent1]
  exact changes_prefix_plain

/-! ## C9: shrinking into the inline class -/

/-- C9: shrinking a single-block array into the inline class does not free its
block.  For every entry with `8 < array_size ≤ 4096` and every `new_size ≤ 8`,
`ResizeIndexEntry` returns the engine state unchanged (no freelist head moves,
no byte of the file changes); the entry it returns holds the first 8 bytes of
the block in `data`. -/
theorem ResizeIndexEntry_to_inline_keeps_block (T : TreeOps) (s : Engine) (entry : IndexEntry)
    (new_size : Nat) (hlow : 8 < entry.array_size) (hhigh : entry.array_size ≤ 4096)
    (hnew : new_size ≤ 8) :
    ResizeIndexEntry T s entry new_size = (s, ⟨new_size, Get64 s.mem entry.offset⟩) := by
  have hnewT : GetBlockType new_size = .L8 := (GetBlockType_eq_L8_iff _).2 hnew
  have hold8 : GetBlockType entry.array_size ≠ .L8 := fun h => by
    have := (GetBlockType_eq_L8_iff _).1 h; omega
  have holdP : GetBlockType entry.array_size ≠ .L4096Plus := fun h => by
    have := (GetBlockType_eq_L4096Plus_iff _).1 h; omega
  simp [ResizeIndexEntry, ResizeIndexEntry.reclass, hnewT, hold8, holdP]

/-- C9, at a concrete entry: array 1 of the store `sized plainOps 100` has 100 bytes in
the L128 block at file offset 2048 and the L128 freelist starts at 2176;
shrinking the entry to 8 bytes leaves the state as it is, so the head is still
2176 and not 2048. -/
theorem ResizeIndexEntry_to_inline_keeps_block_witness :
    GetIndexEntry plainOps (sized plainOps 100) ⟨1⟩ = ⟨100, 2048⟩ ∧
    (sized plainOps 100).static_metadata.free_block_head .L128 = 2176 ∧
    ResizeIndexEntry plainOps (sized plainOps 100) ⟨100, 2048⟩ 8 =
      (sized plainOps 100, ⟨8, Get64 (sized plainOps 100).mem 2048⟩) :=
  ⟨by decide!, by decide!,
    ResizeIndexEntry_to_inline_keeps_block plainOps (sized plainOps 100) ⟨100, 2048⟩ 8
      (by decide) (by decide) (by decide)⟩

theorem leak_plain :
    GetIndexEntry plainOps (sized plainOps 100) ⟨1⟩ = ⟨100, 2048⟩ ∧
    freeList (sized plainOps 100) .L128 = some [2176, 2304, 2432, 2560, 2688, 2816, 2944] ∧
    raised (SetArraySize plainOps (sized plainOps 100) ⟨1⟩ 8) = none ∧
    freeList (stateAfter (sized plainOps 100) (SetArraySize plainOps (sized plainOps 100) ⟨1⟩ 8))
      .L128 = some [2176, 2304, 2432, 2560, 2688, 2816, 2944] ∧
    raised (DestroyArray plainOps (sized plainOps 100) ⟨1⟩) = none ∧
    freeList (stateAfter (sized plainOps 100) (DestroyArray plainOps (sized plainOps 100) ⟨1⟩))
      .L128 = some [2176, 2304, 2432, 2560, 2688, 2816, 2944] := by
  decide!

/-- The block of a shrunk or destroyed array is lost: after `Format()` on a
fresh file, two `CreateArray()` and `SetArraySize(1, 100)` array 1 lives in the
L128 block 2048; after `SetArraySize(1, 8)`, and likewise after
`DestroyArray(1)`, the L128 freelist is still `2176, ..., 2944`: block 2048 is
on no freelist and belongs to no array. -/
theorem shrink_and_destroy_leak_block (T : TreeOps) :
    GetIndexEntry T (sized T 100) ⟨1⟩ = ⟨100, 2048⟩ ∧
    freeList (sized T 100) .L128 = some [2176, 2304, 2432, 2560, 2688, 2816, 2944] ∧
    raised (SetArraySize T (sized T 100) ⟨1⟩ 8) = none ∧
    freeList (stateAfter (sized T 100) (SetArraySize T (sized T 100) ⟨1⟩ 8)) .L128
      = some [2176, 2304, 2432, 2560, 2688, 2816, 2944] ∧
    raised (DestroyArray T (sized T 100) ⟨1⟩) = none ∧
    freeList (stateAfter (sized T 100) (DestroyArray T (sized T 100) ⟨1⟩)) .L128
      = some [2176, 2304, 2432, 2560, 2688, 2816, 2944] := by
  have htab : (sized plainOps 100).static_metadata.index_table_entry.array_size ≤ 4096 := by
    decide!
  have hent : (GetIndexEntry plainOps (sized plainOps 100) ⟨1⟩).array_size ≤ 4096 := by
    decide!
  rw [sized_eq T 100 (by decide), GetIndexEntry_small T plainOps _ _ htab,
    SetArraySize_small T plainOps _ _ _ htab hent (by decide),
    DestroyArray_small T plainOps _ _ htab hent]
  exact leak_plain

/-! ## C10: the file size in the header -/

/-- C10: `ExtendFileByOneCluster` grows the file but leaves the header field
`file_size` at its old value, so afterwards the actual size and the header
differ, and a second call returns the same cluster offset as the first. -/
theorem ExtendFileByOneCluster_leaves_header_file_size (s : Engine) :
    (ExtendFileByOneCluster s).1.static_metadata.file_size = s.static_metadata.file_size ∧
    (ExtendFileByOneCluster s).1.size = (s.static_metadata.file_size + 4096) % 2 ^ 64 ∧
    (ExtendFileByOneCluster s).2 = s.static_metadata.file_size ∧
    (ExtendFileByOneCluster (ExtendFileByOneCluster s).1).2 = (ExtendFileByOneCluster s).2 := by
  simp [ExtendFileByOneCluster, SetSize, cluster_size, U64]

theorem file_size_plain :
    raised (SetArraySize plainOps (twoCreated plainOps) ⟨1⟩ 600) = none ∧
    (sized plainOps 600).size = 8192 ∧
    (sized plainOps 600).static_metadata.file_size = 4096 := by
  decide!

/-- The file-size invariant is lost in a reachable state: after `Format()` on a
fresh file, two `CreateArray()` and `SetArraySize(1, 600)` the file has 8192
bytes and the header says 4096. -/
theorem file_size_invariant_lost (T : TreeOps) :
    raised (SetArraySize T (twoCreated T) ⟨1⟩ 600) = none ∧
    (sized T 600).size = 8192 ∧ (sized T 600).static_metadata.file_size = 4096 := by
  rw [sized_eq T 600 (by decide), twoCreated_eq T,
    SetArraySize_small T plainOps _ _ _ (by decide!) (by decide!) (by decide)]
  exact file_size_plain

/-! ## C13, C14, C11: carving a fresh cluster -/

theorem intermediate_block_size (T : BlockType) (hT : T ∈ intermediateClasses) :
    ∃ j, 0 + (j + 1) * block_size_table T = 4096 ∧ 8 ≤ block_size_table T := by
  simp only [intermediateClasses, List.mem_cons, List.mem_singleton, List.not_mem_nil,
    or_false] at hT
  rcases hT with h | h | h | h | h | h | h | h <;> subst h
  · exact ⟨255, by decide, by decide⟩
  · exact ⟨127, by decide, by decide⟩
  · exact ⟨63, by decide, by decide⟩
  · exact ⟨31, by decide, by decide⟩
  · exact ⟨15, by decide, by decide⟩
  · exact ⟨7, by decide, by decide⟩
  · exact ⟨3, by decide, by decide⟩
  · exact ⟨1, by decide, by decide⟩

theorem AllocateBlock_of_empty (s : Engine) (T : BlockType) (hT : T ∈ intermediateClasses)
    (hempty : s.static_metadata.free_block_head T = free_block_tail) :
    (AllocateBlock s T).2 = 0 ∧
    (AllocateBlock s T).1.size = (s.static_metadata.file_size + 4096) % U64 ∧
    ∃ j, (AllocateBlock s T).1.static_metadata.free_block_head T
      = Get64 (threadBlocks s.static_metadata.file_size 0 (block_size_table T) j s.mem 0) 0 := by
  obtain ⟨j, hj, hbs⟩ := intermediate_block_size T hT
  have hmul : (j + 1) * block_size_table T = j * block_size_table T + block_size_table T :=
    Nat.succ_mul j _
  have h4 : block_size_table T ≤ 4096 := by omega
  have heq := InitializeClusterSection_eq (ExtendFileByOneCluster s).1 T
    (ExtendFileByOneCluster s).2 0 4096 j (by unfold U64; omega) (by omega) hj
  unfold AllocateBlock
  simp only [hempty, if_true, InitializeCluster, cluster_size]
  rw [heq]
  refine ⟨rfl, ?_, j, ?_⟩
  · simp [setFreeBlockHead, ExtendFileByOneCluster, SetSize, cluster_size]
  · simp [setFreeBlockHead, ExtendFileByOneCluster, SetSize, hempty, free_block_tail]

/-- C13: on an empty freelist `AllocateBlock` does not hand out a block of the
new cluster.  For every class `T` in `L16 .. L2048` whose freelist is empty
(header `file_size` at least 8), `AllocateBlock(T)` appends one cluster and
returns the offset 0, the in-cluster offset of the first block of the new
cluster as returned by `InitializeCluster`; the new `free_block_head[T]` is the
number stored in bytes 0..7 of the file, not a block of the new cluster. -/
theorem AllocateBlock_empty_freelist_returns_zero (s : Engine) (T : BlockType)
    (hT : T ∈ intermediateClasses)
    (hempty : s.static_metadata.free_block_head T = free_block_tail)
    (hF : 8 ≤ s.static_metadata.file_size) :
    (AllocateBlock s T).2 = 0 ∧
    (AllocateBlock s T).1.size = (s.static_metadata.file_size + 4096) % U64 ∧
    (AllocateBlock s T).1.static_metadata.free_block_head T = Get64 s.mem 0 := by
  obtain ⟨h0, hsize, j, hhead⟩ := AllocateBlock_of_empty s T hT hempty
  refine ⟨h0, hsize, ?_⟩
  rw [hhead, Get64_threadBlocks_frame _ _ _ _ _ _ _ (by omega)]

/-- C13, at a concrete call: on the store right after `Format()` on a fresh file
(file size 4096, L512 freelist empty) `AllocateBlock(L512)` returns 0, which is
not in `[4096, 8192)`, the file grows to 8192 bytes and the L512 freelist is
empty again: the eight blocks of the new cluster are on no freelist. -/
theorem AllocateBlock_empty_freelist_returns_zero_witness :
    (BlockType.L512 ∈ intermediateClasses ∧
      formatted.static_metadata.free_block_head .L512 = free_block_tail ∧
      8 ≤ formatted.static_metadata.file_size ∧ formatted.static_metadata.file_size = 4096) ∧
    ((AllocateBlock formatted .L512).2 = 0 ∧
      (AllocateBlock formatted .L512).1.size = (formatted.static_metadata.file_size + 4096) % U64 ∧
      (AllocateBlock formatted .L512).1.static_metadata.free_block_head .L512
        = Get64 formatted.mem 0) ∧
    freeList (AllocateBlock formatted .L512).1 .L512 = some [] :=
  ⟨⟨by decide, by decide!, by decide!, by decide!⟩,
    AllocateBlock_empty_freelist_returns_zero formatted .L512 (by decide) (by decide!)
      (by decide!),
    by decide!⟩

/-- C14: `InitializeClusterSection` threads the range with in-cluster offsets.
For every class `T` in `L16 .. L2048`, every cluster offset, every section
`begin, begin + block_size, ..., begin + j * block_size` with
`end = begin + (j + 1) * block_size <= 4096` and previous head `h`, the loop
ends after the `j + 1` blocks, the value returned and stored in
`free_block_head[T]` is `begin` (not `cluster_off + begin`), and the block at
file offset `cluster_off + begin + i * block_size` holds the next-pointer
`begin + (i + 1) * block_size` (not `cluster_off + ...`), the last block
holds `h`. -/
theorem InitializeClusterSection_threads_in_cluster_offsets (s : Engine) (T : BlockType)
    (cluster_offset begin_offset end_offset j : Nat) (hT : T ∈ intermediateClasses)
    (hj : begin_offset + (j + 1) * block_size_table T = end_offset)
    (hend : end_offset ≤ 4096)
    (hh : s.static_metadata.free_block_head T < U64) :
    (InitializeClusterSection s T cluster_offset begin_offset end_offset).2 = begin_offset ∧
    (InitializeClusterSection s T cluster_offset begin_offset
      end_offset).1.static_metadata.free_block_head T = begin_offset ∧
    ∀ i, i ≤ j →
      Get64 (InitializeClusterSection s T cluster_offset begin_offset end_offset).1.mem
          (cluster_offset + (begin_offset + i * block_size_table T))
        = if i < j then begin_offset + (i + 1) * block_size_table T
          else s.static_metadata.free_block_head T := by
  obtain ⟨j0, hj0, hbs⟩ := intermediate_block_size T hT
  have hmul : (j + 1) * block_size_table T = j * block_size_table T + block_size_table T :=
    Nat.succ_mul j _
  have heq := InitializeClusterSection_eq s T cluster_offset begin_offset end_offset j
    (by unfold U64; omega) (by omega) hj
  rw [heq]
  refine ⟨rfl, by simp [setFreeBlockHead], ?_⟩
  intro i hi
  exact Get64_threadBlocks_link cluster_offset begin_offset (block_size_table T) hbs j s.mem
    (s.static_metadata.free_block_head T) i hi hh (by unfold U64; omega)

/-- C14, at a concrete call: carving the cluster at file offset 4096 for L1024
on the formatted store returns head 0, which is not the file offset 4096, and
the block at file offset 4096 points to 1024, which is not 5120. -/
theorem InitializeClusterSection_threads_in_cluster_offsets_witness :
    (BlockType.L1024 ∈ intermediateClasses ∧ 0 + (3 + 1) * block_size_table .L1024 = 4096 ∧
      formatted.static_metadata.free_block_head .L1024 < U64) ∧
    ((InitializeClusterSection formatted .L1024 4096 0 4096).2 = 0 ∧
      (InitializeClusterSection formatted .L1024 4096 0
        4096).1.static_metadata.free_block_head .L1024 = 0 ∧
      ∀ i, i ≤ 3 →
        Get64 (InitializeClusterSection formatted .L1024 4096 0 4096).1.mem
            (4096 + (0 + i * block_size_table .L1024))
          = if i < 3 then 0 + (i + 1) * block_size_table .L1024
            else formatted.static_metadata.free_block_head .L1024) ∧
    Get64 (InitializeClusterSection formatted .L1024 4096 0 4096).1.mem 4096 = 1024 :=
  ⟨⟨by decide, by decide, by decide!⟩,
    InitializeClusterSection_threads_in_cluster_offsets formatted .L1024 4096 0 4096 3
      (by decide) (by decide) (by decide) (by decide!),
    by decide!⟩

theorem liveBlocks_of_inline_table (T : TreeOps) (s : Engine)
    (h : s.static_metadata.index_table_entry.array_size ≤ 8) : liveBlocks T s = [] := by
  have h1 : ¬ 8 < s.static_metadata.index_table_entry.array_size := by omega
  have h2 : s.static_metadata.index_table_entry.array_size / index_entry_size = 0 := by
    unfold index_entry_size
    omega
  simp [liveBlocks, h1, h2]

theorem FreelistInvariant_broken_plain :
    FreelistInvariant formattedFileSizeFirst [] = true ∧
    formattedFileSizeFirst.static_metadata.free_block_head .L512 = free_block_tail ∧
    (AllocateBlock formattedFileSizeFirst .L512).2 = 0 ∧
    freeList (AllocateBlock formattedFileSizeFirst .L512).1 .L512
      = some [4096, 512, 544, 576, 608, 640, 672, 704, 736, 768, 800, 832, 864, 896, 928,
        960, 992] ∧
    freeList (AllocateBlock formattedFileSizeFirst .L512).1 .L32
      = some [512, 544, 576, 608, 640, 672, 704, 736, 768, 800, 832, 864, 896, 928, 960,
        992] ∧
    FreelistInvariant (AllocateBlock formattedFileSizeFirst .L512).1 [] = false := by
  decide!

/-- C11: `AllocateBlock` on an empty freelist does not preserve the freelist
invariant.  On the store after `Format()` (bytes 0..7 of the file hold 4096)
the invariant holds and the L512 freelist is empty.  `AllocateBlock(L512)`
returns 0 and makes `free_block_head[L512]` the number in bytes 0..7; afterwards
the L512 chain is `4096, 512, 544, ..., 992`: it runs into cluster 0, shares
fifteen offsets that are not 512-aligned with the L32 freelist, and the
invariant is false. -/
theorem AllocateBlock_breaks_FreelistInvariant (T : TreeOps) :
    FreelistInvariant formattedFileSizeFirst (liveBlocks T formattedFileSizeFirst) = true ∧
    formattedFileSizeFirst.static_metadata.free_block_head .L512 = free_block_tail ∧
    (AllocateBlock formattedFileSizeFirst .L512).2 = 0 ∧
    freeList (AllocateBlock formattedFileSizeFirst .L512).1 .L512
      = some [4096, 512, 544, 576, 608, 640, 672, 704, 736, 768, 800, 832, 864, 896, 928,
        960, 992] ∧
    freeList (AllocateBlock formattedFileSizeFirst .L512).1 .L32
      = some [512, 544, 576, 608, 640, 672, 704, 736, 768, 800, 832, 864, 896, 928, 960,
        992] ∧
    FreelistInvariant (AllocateBlock formattedFileSizeFirst .L512).1
      (liveBlocks T (AllocateBlock formattedFileSizeFirst .L512).1) = false := by
  rw [liveBlocks_of_inline_table T formattedFileSizeFirst (by decide!),
    liveBlocks_of_inline_table T (AllocateBlock formattedFileSizeFirst .L512).1 (by decide!)]
  exact FreelistInvariant_broken_plain

/-! ## C15: growing a small array into the tree class -/

theorem reclass_array_size (s : Engine) (entry : IndexEntry) (f t : BlockType) (o n : Nat) :
    (ResizeIndexEntry.reclass s entry f t o n).2.array_size = entry.array_size := by
  unfold ResizeIndexEntry.reclass
  dsimp only
  split_ifs <;> rfl

theorem GetClusterNumber_le_one (a : Nat) (h : a ≤ 4096) : GetClusterNumber a ≤ 1 := by
  unfold GetClusterNumber cluster_size
  omega

theorem GetClusterNumber_ge_two (n : Nat) (h : 4096 < n) : 2 ≤ GetClusterNumber n := by
  unfold GetClusterNumber cluster_size
  omega

/-- C15: growing a small array into the tree class does not hand the tree an
entry of size `cluster_size`.  For every entry with `array_size = old <= 4096`
and every `new_size > 4096`, `ResizeIndexEntry(entry, new_size)` moves the
payload to an L4096 block and then constructs the `L4096PlusClusterIterator`
over an entry whose `array_size` is still `old`: the constructor's assertion
`entry.array_size >= cluster_size` holds only for `old = 4096`. -/
theorem ResizeIndexEntry_grow_into_tree_keeps_old_size (T : TreeOps) (s : Engine)
    (entry : IndexEntry) (new_size : Nat) (hold : entry.array_size ≤ 4096)
    (hnew : 4096 < new_size) :
    ResizeIndexEntry T s entry new_size
      = T.Resize
          (ResizeIndexEntry.reclass s entry (GetBlockType entry.array_size) .L4096
            entry.array_size new_size).1
          (ResizeIndexEntry.reclass s entry (GetBlockType entry.array_size) .L4096
            entry.array_size new_size).2 new_size ∧
    (ResizeIndexEntry.reclass s entry (GetBlockType entry.array_size) .L4096
      entry.array_size new_size).2.array_size = entry.array_size ∧
    (cluster_size ≤ (ResizeIndexEntry.reclass s entry (GetBlockType entry.array_size) .L4096
      entry.array_size new_size).2.array_size ↔ entry.array_size = 4096) := by
  have hnewT : GetBlockType new_size = .L4096Plus := (GetBlockType_eq_L4096Plus_iff new_size).2 hnew
  have holdT : GetBlockType entry.array_size ≠ .L4096Plus :=
    GetBlockType_ne_L4096Plus entry.array_size hold
  have hsz := reclass_array_size s entry (GetBlockType entry.array_size) .L4096
    entry.array_size new_size
  refine ⟨?_, hsz, ?_⟩
  · unfold ResizeIndexEntry
    dsimp only
    rw [hnewT, if_neg holdT, if_neg holdT]
    simp only [if_true]
    unfold ResizeL4096PlusIndexEntry
    rw [if_neg]
    rw [hsz]
    have h1 := GetClusterNumber_le_one entry.array_size hold
    have h2 := GetClusterNumber_ge_two new_size hnew
    omega
  · rw [hsz]
    unfold cluster_size
    omega

/-- C15, at a concrete call: growing a fresh array (size 0) to 8192 bytes on the
formatted store constructs the iterator over an entry of size 0, which is below
`cluster_size`. -/
theorem ResizeIndexEntry_grow_into_tree_keeps_old_size_witness :
    ((⟨0, 0⟩ : IndexEntry).array_size ≤ 4096 ∧ 4096 < 8192) ∧
    (ResizeIndexEntry plainOps formatted ⟨0, 0⟩ 8192
      = plainOps.Resize
          (ResizeIndexEntry.reclass formatted ⟨0, 0⟩
            (GetBlockType (⟨0, 0⟩ : IndexEntry).array_size) .L4096
            (⟨0, 0⟩ : IndexEntry).array_size 8192).1
          (ResizeIndexEntry.reclass formatted ⟨0, 0⟩
            (GetBlockType (⟨0, 0⟩ : IndexEntry).array_size) .L4096
            (⟨0, 0⟩ : IndexEntry).array_size 8192).2 8192 ∧
      (ResizeIndexEntry.reclass formatted ⟨0, 0⟩
        (GetBlockType (⟨0, 0⟩ : IndexEntry).array_size) .L4096
        (⟨0, 0⟩ : IndexEntry).array_size 8192).2.array_size = (⟨0, 0⟩ : IndexEntry).array_size ∧
      (cluster_size ≤ (ResizeIndexEntry.reclass formatted ⟨0, 0⟩
        (GetBlockType (⟨0, 0⟩ : IndexEntry).array_size) .L4096
        (⟨0, 0⟩ : IndexEntry).array_size 8192).2.array_size
          ↔ (⟨0, 0⟩ : IndexEntry).array_size = 4096)) ∧
    (ResizeIndexEntry.reclass formatted ⟨0, 0⟩ .L8 .L4096 0 8192).2.array_size = 0 :=
  ⟨⟨by decide, by decide⟩,
    ResizeIndexEntry_grow_into_tree_keeps_old_size plainOps formatted ⟨0, 0⟩ 8192 (by decide)
      (by decide),
    reclass_array_size formatted ⟨0, 0⟩ .L8 .L4096 0 8192⟩

/-! ## C19: growth of the index table -/

theorem GetClusterNumber_index_block (c : Nat) :
    GetClusterNumber (c * cluster_index_size) = (c + 511) / 512 := by
  unfold GetClusterNumber cluster_index_size cluster_size
  omega

theorem levelCount_zero (leaves : Nat) : levelCount leaves 0 = leaves := by
  simp [levelCount]

theorem levelCount_succ (leaves level : Nat) (h : 1 ≤ leaves) :
    (levelCount leaves level + 511) / 512 = levelCount leaves (level + 1) := by
  unfold levelCount
  have hp : 0 < 512 ^ level := pow_pos (by decide) _
  have h1 : (leaves + 512 ^ level - 1) / 512 ^ level = (leaves - 1) / 512 ^ level + 1 := by
    rw [show leaves + 512 ^ level - 1 = (leaves - 1) + 512 ^ level by omega]
    exact Nat.add_div_right _ hp
  have hp2 : 0 < 512 ^ (level + 1) := pow_pos (by decide) _
  have h2 : (leaves + 512 ^ (level + 1) - 1) / 512 ^ (level + 1)
      = (leaves - 1) / 512 ^ (level + 1) + 1 := by
    rw [show leaves + 512 ^ (level + 1) - 1 = (leaves - 1) + 512 ^ (level + 1) by omega]
    exact Nat.add_div_right _ hp2
  rw [h1, h2, show (leaves - 1) / 512 ^ level + 1 + 511 = (leaves - 1) / 512 ^ level + 512 by omega,
    Nat.add_div_right _ (by decide : 0 < 512), Nat.div_div_eq_div_mul, pow_succ]

theorem levelCount_le_one_iff (leaves level : Nat) (h : 1 ≤ leaves) :
    levelCount leaves level ≤ 1 ↔ leaves ≤ 512 ^ level := by
  unfold levelCount
  have hp : 0 < 512 ^ level := pow_pos (by decide) _
  rw [show leaves + 512 ^ level - 1 = (leaves - 1) + 512 ^ level by omega,
    Nat.add_div_right _ hp]
  constructor
  · intro hle
    have h0 : (leaves - 1) / 512 ^ level = 0 := Nat.le_zero.mp (Nat.le_of_succ_le_succ hle)
    rw [Nat.div_eq_zero_iff hp] at h0
    omega
  · intro hle
    have h0 : (leaves - 1) / 512 ^ level = 0 := by
      rw [Nat.div_eq_zero_iff hp]
      omega
    rw [h0]

theorem levelCount_le (leaves level : Nat) (h : 1 ≤ leaves) : levelCount leaves level ≤ leaves := by
  unfold levelCount
  have hp : 0 < 512 ^ level := pow_pos (by decide) _
  rw [show leaves + 512 ^ level - 1 = (leaves - 1) + 512 ^ level by omega,
    Nat.add_div_right _ hp]
  have h2 := Nat.div_le_self (leaves - 1) (512 ^ level)
  generalize (leaves - 1) / 512 ^ level = q at h2 ⊢
  omega

theorem create_loop_spec (leaves : Nat) (hl : 1 ≤ leaves) (hb : leaves * 8 < U64) :
    ∀ (f k : Nat) (stack : Nat → LevelRecord), leaves ≤ 512 ^ (k + f) → k + f < 64 →
      ∃ stack1 d,
        L4096PlusClusterIterator.create.loop (f + 1) (levelCount leaves k) stack k
          = some (stack1, d) ∧
        k ≤ d ∧ leaves ≤ 512 ^ d ∧ (d = k ∨ 512 ^ (d - 1) < leaves) ∧
        ∀ L, stack1 L = if k ≤ L ∧ L < d
          then { stack L with cluster_number := levelCount leaves L } else stack L := by
  intro f
  induction f with
  | zero =>
    intro k stack hle _
    have hc : ¬ levelCount leaves k > 1 := by
      have := (levelCount_le_one_iff leaves k hl).2 (by simpa using hle)
      omega
    refine ⟨stack, k, ?_, le_refl _, by simpa using hle, Or.inl rfl, ?_⟩
    · simp only [L4096PlusClusterIterator.create.loop, if_neg hc]
    · intro L
      rw [if_neg (by omega)]
  | succ f ih =>
    intro k stack hle hk
    by_cases hc : levelCount leaves k > 1
    · have hcl := levelCount_le leaves k hl
      have hmod : (levelCount leaves k * cluster_index_size) % U64
          = levelCount leaves k * cluster_index_size := by
        apply Nat.mod_eq_of_lt
        unfold cluster_index_size
        omega
      have hk1 : (k + 1) % U64 = k + 1 := by
        apply Nat.mod_eq_of_lt
        unfold U64
        omega
      have hgt : 512 ^ k < leaves := by
        by_contra hn
        have := (levelCount_le_one_iff leaves k hl).2 (by omega)
        omega
      obtain ⟨stack1, d, hrun, hkd, hd, hmin, hst⟩ :=
        ih (k + 1) (setClusterNumber stack k (levelCount leaves k))
          (by rw [show k + 1 + f = k + (f + 1) by omega]; exact hle) (by omega)
      refine ⟨stack1, d, ?_, by omega, hd, ?_, ?_⟩
      · rw [L4096PlusClusterIterator.create.loop, if_pos hc, hmod, GetClusterNumber_index_block,
          levelCount_succ leaves k hl, hk1]
        exact hrun
      · right
        rcases hmin with h | h
        · rw [h]; simpa using hgt
        · exact h
      · intro L
        rw [hst L]
        by_cases hL : L = k
        · subst hL
          have h1 : ¬ (L + 1 ≤ L ∧ L < d) := by omega
          have h2 : L ≤ L ∧ L < d := ⟨le_refl _, by omega⟩
          have hsk : setClusterNumber stack L (levelCount leaves L) L
              = { stack L with cluster_number := levelCount leaves L } := by
            simp [setClusterNumber]
          rw [if_neg h1, if_pos h2, hsk]
        · have hsk : setClusterNumber stack k (levelCount leaves k) L = stack L := by
            simp only [setClusterNumber, if_neg hL]
          rw [hsk]
          by_cases h2 : k + 1 ≤ L ∧ L < d
          · have h3 : k ≤ L ∧ L < d := ⟨by omega, h2.2⟩
            rw [if_pos h2, if_pos h3]
          · have h3 : ¬ (k ≤ L ∧ L < d) := by omega
            rw [if_neg h2, if_neg h3]
    · have hle1 : leaves ≤ 512 ^ k := (levelCount_le_one_iff leaves k hl).1 (by omega)
      refine ⟨stack, k, ?_, le_refl _, hle1, Or.inl rfl, ?_⟩
      · simp only [L4096PlusClusterIterator.create.loop, if_neg hc]
      · intro L
        rw [if_neg (by omega)]

theorem GetClusterNumber_le_iff (size n : Nat) : GetClusterNumber size ≤ n ↔ size ≤ n * 4096 := by
  unfold GetClusterNumber cluster_size
  omega

theorem create_spec (uninitialised : Nat → LevelRecord) (entry : IndexEntry)
    (hlo : 4096 ≤ entry.array_size) (hhi : entry.array_size ≤ 2 ^ 57) :
    ∃ it, L4096PlusClusterIterator.create uninitialised entry = some it ∧
      it.entry = entry ∧
      entry.array_size ≤ 512 ^ it.stack_level_count * 4096 ∧
      (∀ d, entry.array_size ≤ 512 ^ d * 4096 → it.stack_level_count ≤ d) ∧
      (∀ L, L < it.stack_level_count →
        (it.cluster_level_stack L).cluster_number
          = levelCount (GetClusterNumber entry.array_size) L) ∧
      it.stack_level_count < max_cluster_hierarchy_depth := by
  have hl : 1 ≤ GetClusterNumber entry.array_size := by
    unfold GetClusterNumber cluster_size
    omega
  have h45 : GetClusterNumber entry.array_size ≤ 2 ^ 45 := by
    rw [GetClusterNumber_le_iff]
    exact le_trans hhi (by decide)
  obtain ⟨stack1, d, hrun, _, hd, hmin, hst⟩ :=
    create_loop_spec (GetClusterNumber entry.array_size) hl
      (by unfold U64; omega) 63 0 uninitialised
      (le_trans h45 (by decide)) (by decide)
  rw [levelCount_zero] at hrun
  have hsmall : ∀ d1, entry.array_size ≤ 512 ^ d1 * 4096 → d ≤ d1 := by
    intro d1 hd1
    by_contra hlt
    rcases hmin with h | h
    · omega
    · have h1 : GetClusterNumber entry.array_size ≤ 512 ^ d1 :=
        (GetClusterNumber_le_iff _ _).2 hd1
      have h2 : 512 ^ d1 ≤ 512 ^ (d - 1) := Nat.pow_le_pow_right (by decide) (by omega)
      omega
  refine ⟨⟨entry, stack1, d, U64 - 1⟩, ?_, rfl, ?_, hsmall, ?_, ?_⟩
  · unfold L4096PlusClusterIterator.create
    rw [hrun]
  · exact (GetClusterNumber_le_iff _ _).1 hd
  · intro L hL
    show (stack1 L).cluster_number = _
    rw [hst L, if_pos ⟨Nat.zero_le _, hL⟩]
  · have h5 := hsmall 5 (le_trans hhi (by decide))
    show d < max_cluster_hierarchy_depth
    unfold max_cluster_hierarchy_depth
    omega

/-- C16: the tree shape computed by the iterator constructor.  For every entry
with `4096 <= array_size <= 2^57`, whatever the records of the stack held
before, the constructor's loop ends; `stack_level_count` is the smallest `d`
with `512^d * 4096 >= array_size`; the recorded count of every level
`L < stack_level_count` is `ceil(leaves / 512^L)` with
`leaves = ceil(array_size / 4096)`; and `stack_level_count` is below
`max_cluster_hierarchy_depth = 6`, so the level index asserted in the loop stays
in range. -/
theorem create_tree_shape (uninitialised : Nat → LevelRecord) (entry : IndexEntry)
    (hlo : 4096 ≤ entry.array_size) (hhi : entry.array_size ≤ 2 ^ 57) :
    ∃ it, L4096PlusClusterIterator.create uninitialised entry = some it ∧
      it.entry = entry ∧
      entry.array_size ≤ 512 ^ it.stack_level_count * 4096 ∧
      (∀ d, entry.array_size ≤ 512 ^ d * 4096 → it.stack_level_count ≤ d) ∧
      (∀ L, L < it.stack_level_count →
        (it.cluster_level_stack L).cluster_number
          = levelCount (GetClusterNumber entry.array_size) L) ∧
      it.stack_level_count < max_cluster_hierarchy_depth :=
  create_spec uninitialised entry hlo hhi

/-- C16, at a concrete entry: an array of 513 leaf clusters has depth 2, with
513 clusters at level 0 and 2 at level 1. -/
theorem create_tree_shape_witness :
    ((4096 : Nat) ≤ (⟨513 * 4096, 8192⟩ : IndexEntry).array_size ∧
      (⟨513 * 4096, 8192⟩ : IndexEntry).array_size ≤ 2 ^ 57) ∧
    (∃ it, L4096PlusClusterIterator.create (fun _ => ⟨0, 0, 0⟩) ⟨513 * 4096, 8192⟩ = some it ∧
      it.entry = ⟨513 * 4096, 8192⟩ ∧
      (⟨513 * 4096, 8192⟩ : IndexEntry).array_size ≤ 512 ^ it.stack_level_count * 4096 ∧
      (∀ d, (⟨513 * 4096, 8192⟩ : IndexEntry).array_size ≤ 512 ^ d * 4096 →
        it.stack_level_count ≤ d) ∧
      (∀ L, L < it.stack_level_count →
        (it.cluster_level_stack L).cluster_number
          = levelCount (GetClusterNumber (⟨513 * 4096, 8192⟩ : IndexEntry).array_size) L) ∧
      it.stack_level_count < max_cluster_hierarchy_depth) ∧
    (L4096PlusClusterIterator.create (fun _ => ⟨0, 0, 0⟩) ⟨513 * 4096, 8192⟩).map
      (fun it => (it.stack_level_count, (it.cluster_level_stack 0).cluster_number,
        (it.cluster_level_stack 1).cluster_number)) = some (2, 513, 2) :=
  ⟨⟨by decide, by decide⟩,
    create_tree_shape (fun _ => ⟨0, 0, 0⟩) ⟨513 * 4096, 8192⟩ (by decide) (by decide),
    by decide!⟩

/-! ## C18: the planning loop of `ExpandToSize` -/

theorem levelCount_mono (a b level : Nat) (h : a ≤ b) : levelCount a level ≤ levelCount b level := by
  unfold levelCount
  exact Nat.div_le_div_right (by omega)

theorem plan_spec (stack : Nat → LevelRecord) (leaves : Nat) (hl : 1 ≤ leaves)
    (hb : leaves * 8 < U64) :
    ∀ (f k : Nat) (nums : Nat → Nat), leaves ≤ 512 ^ (k + f) → k + f < 64 →
      ∃ nums1 nl,
        ExpandToSize.plan stack (f + 1) (levelCount leaves k) nums k = some (nums1, nl) ∧
        k ≤ nl ∧
        (∀ L, k ≤ L → L < nl → (stack L).cluster_number ≠ levelCount leaves L) ∧
        ((1 < levelCount leaves nl ∧ (stack nl).cluster_number = levelCount leaves nl) ∨
          levelCount leaves nl ≤ 1) := by
  intro f
  induction f with
  | zero =>
    intro k nums hle _
    have hc : levelCount leaves k ≤ 1 :=
      (levelCount_le_one_iff leaves k hl).2 (by simpa using hle)
    refine ⟨nums, k, ?_, le_refl _, fun L h1 h2 => by omega, Or.inr hc⟩
    simp only [ExpandToSize.plan, if_neg (show ¬ levelCount leaves k > 1 by omega)]
  | succ f ih =>
    intro k nums hle hk
    by_cases hc : levelCount leaves k > 1
    · by_cases heq : (stack k).cluster_number = levelCount leaves k
      · refine ⟨nums, k, ?_, le_refl _, fun L h1 h2 => by omega, Or.inl ⟨hc, heq⟩⟩
        simp only [ExpandToSize.plan, if_pos hc, if_pos heq]
      · have hcl := levelCount_le leaves k hl
        have hmod : (levelCount leaves k * cluster_index_size) % U64
            = levelCount leaves k * cluster_index_size := by
          apply Nat.mod_eq_of_lt
          unfold cluster_index_size
          omega
        have hk1 : (k + 1) % U64 = k + 1 := by
          apply Nat.mod_eq_of_lt
          unfold U64
          omega
        obtain ⟨nums1, nl, hrun, hknl, hne, hbr⟩ :=
          ih (k + 1) (fun l => if l = k then levelCount leaves k else nums l)
            (by rw [show k + 1 + f = k + (f + 1) by omega]; exact hle) (by omega)
        refine ⟨nums1, nl, ?_, by omega, ?_, hbr⟩
        · rw [ExpandToSize.plan, if_pos hc, if_neg heq, hmod, GetClusterNumber_index_block,
            levelCount_succ leaves k hl, hk1]
          exact hrun
        · intro L h1 h2
          by_cases hLk : L = k
          · rw [hLk]; exact heq
          · exact hne L (by omega) h2
    · refine ⟨nums, k, ?_, le_refl _, fun L h1 h2 => by omega, Or.inr (by omega)⟩
      simp only [ExpandToSize.plan, if_neg hc]

theorem levelCounts_spec (uninitialised : Nat → LevelRecord) (locals : Nat → Nat)
    (entry : IndexEntry) (new_size : Nat)
    (hlo : 4096 < entry.array_size) (hhi : new_size ≤ 2 ^ 57)
    (hgrow : GetClusterNumber entry.array_size < GetClusterNumber new_size) :
    ∃ nl d, ExpandToSize.levelCounts uninitialised locals entry new_size = some (nl, d) ∧
      1 ≤ nl ∧
      (nl < d ↔ ∃ L, L < d ∧
        levelCount (GetClusterNumber new_size) L
          = levelCount (GetClusterNumber entry.array_size) L) ∧
      (nl < d →
        levelCount (GetClusterNumber new_size) nl
          = levelCount (GetClusterNumber entry.array_size) nl ∧
        ∀ L, L < nl → levelCount (GetClusterNumber new_size) L
          ≠ levelCount (GetClusterNumber entry.array_size) L) := by
  have h45 : GetClusterNumber new_size ≤ 2 ^ 45 := by
    rw [GetClusterNumber_le_iff]
    exact le_trans hhi (by decide)
  have hold1 : 1 ≤ GetClusterNumber entry.array_size := by
    unfold GetClusterNumber cluster_size
    omega
  have hold57 : entry.array_size ≤ 2 ^ 57 := by
    have h1 : GetClusterNumber entry.array_size ≤ 2 ^ 45 := by omega
    rw [GetClusterNumber_le_iff] at h1
    exact le_trans h1 (by decide)
  obtain ⟨it, hit, _, hdep, hsmall, hst, _⟩ :=
    create_spec uninitialised entry (by omega) hold57
  obtain ⟨nums1, nl, hrun, _, hne, hbr⟩ :=
    plan_spec it.cluster_level_stack (GetClusterNumber new_size) (by omega)
      (by unfold U64; omega) 63 0 locals (le_trans h45 (by decide)) (by decide)
  rw [levelCount_zero] at hrun
  have hbig : ∀ L, L < it.stack_level_count →
      1 < levelCount (GetClusterNumber entry.array_size) L := by
    intro L hL
    by_contra hle
    have h1 := (levelCount_le_one_iff _ L hold1).1 (by omega)
    have h2 := hsmall L ((GetClusterNumber_le_iff _ _).1 h1)
    omega
  have hd1 : 1 ≤ it.stack_level_count := by
    by_contra h0
    have h1 : it.stack_level_count = 0 := by omega
    rw [h1] at hdep
    simp at hdep
    omega
  refine ⟨nl, it.stack_level_count, ?_, ?_, ?_, ?_⟩
  · unfold ExpandToSize.levelCounts
    simp only [hit, hrun]
  · by_contra h0
    have hnl : nl = 0 := by omega
    rw [hnl, levelCount_zero] at hbr
    rcases hbr with ⟨_, h⟩ | h
    · rw [hst 0 (by omega), levelCount_zero] at h
      omega
    · omega
  · constructor
    · intro hlt
      refine ⟨nl, hlt, ?_⟩
      rcases hbr with ⟨_, h⟩ | h
      · rw [← h, hst nl hlt]
      · have h1 := hbig nl hlt
        have h2 := levelCount_mono _ _ nl (le_of_lt hgrow)
        omega
    · rintro ⟨L, hL, heq⟩
      by_contra hge
      exact hne L (Nat.zero_le _) (by omega) (by rw [hst L hL, heq])
  · intro hlt
    constructor
    · rcases hbr with ⟨_, h⟩ | h
      · rw [← h, hst nl hlt]
      · have h1 := hbig nl hlt
        have h2 := levelCount_mono _ _ nl (le_of_lt hgrow)
        omega
    · intro L hL heq
      exact hne L (Nat.zero_le _) hL (by rw [hst L (by omega), heq])

/-- C18, the claim as stated, refuted: for the iterator over an entry of 513
leaf clusters (`stack_level_count = 2`, counts 513 and 2) and the new size of
514 leaf clusters, the planning loop of `ExpandToSize` leaves at level 1, whose
count 2 is unchanged, with `new_level_count = 1`, which is smaller than
`stack_level_count`: the branch `new_level_count < stack_level_count` is
taken. -/
theorem ExpandToSize_shallower_branch_taken :
    GetClusterNumber (513 * 4096) < GetClusterNumber (514 * 4096) ∧
    ExpandToSize.levelCounts (fun _ => ⟨0, 0, 0⟩) (fun _ => 0) ⟨513 * 4096, 8192⟩ (514 * 4096)
      = some (1, 2) := by
  decide!

/-- C18, amended: for every iterator built over a tree-backed entry of size `S`
(`4096 < S`) and every `new_size <= 2^57` that needs more leaf clusters than
`S`, the planning loop of `ExpandToSize` ends with `new_level_count >= 1`, and
`new_level_count < stack_level_count` holds exactly when some level
`L < stack_level_count` has the same cluster count for `new_size` as for `S`;
`new_level_count` then is the lowest such level (the join level). -/
theorem ExpandToSize_shallower_branch_iff_join_level (uninitialised : Nat → LevelRecord)
    (locals : Nat → Nat) (entry : IndexEntry) (new_size : Nat)
    (hlo : 4096 < entry.array_size) (hhi : new_size ≤ 2 ^ 57)
    (hgrow : GetClusterNumber entry.array_size < GetClusterNumber new_size) :
    ∃ new_level_count stack_level_count,
      ExpandToSize.levelCounts uninitialised locals entry new_size
        = some (new_level_count, stack_level_count) ∧
      1 ≤ new_level_count ∧
      (new_level_count < stack_level_count ↔ ∃ L, L < stack_level_count ∧
        levelCount (GetClusterNumber new_size) L
          = levelCount (GetClusterNumber entry.array_size) L) ∧
      (new_level_count < stack_level_count →
        levelCount (GetClusterNumber new_size) new_level_count
          = levelCount (GetClusterNumber entry.array_size) new_level_count ∧
        ∀ L, L < new_level_count → levelCount (GetClusterNumber new_size) L
          ≠ levelCount (GetClusterNumber entry.array_size) L) :=
  levelCounts_spec uninitialised locals entry new_size hlo hhi hgrow

/-- C18, amended, at a concrete growth: from 512 to 513 leaf clusters no level
keeps its count, so the planned depth 2 is not below the old depth 1. -/
theorem ExpandToSize_shallower_branch_iff_join_level_witness :
    ((4096 : Nat) < (⟨512 * 4096, 8192⟩ : IndexEntry).array_size ∧ 513 * 4096 ≤ 2 ^ 57 ∧
      GetClusterNumber (⟨512 * 4096, 8192⟩ : IndexEntry).array_size
        < GetClusterNumber (513 * 4096)) ∧
    (∃ new_level_count stack_level_count,
      ExpandToSize.levelCounts (fun _ => ⟨0, 0, 0⟩) (fun _ => 0) ⟨512 * 4096, 8192⟩ (513 * 4096)
        = some (new_level_count, stack_level_count) ∧
      1 ≤ new_level_count ∧
      (new_level_count < stack_level_count ↔ ∃ L, L < stack_level_count ∧
        levelCount (GetClusterNumber (513 * 4096)) L
          = levelCount (GetClusterNumber (⟨512 * 4096, 8192⟩ : IndexEntry).array_size) L) ∧
      (new_level_count < stack_level_count →
        levelCount (GetClusterNumber (513 * 4096)) new_level_count
          = levelCount (GetClusterNumber (⟨512 * 4096, 8192⟩ : IndexEntry).array_size)
              new_level_count ∧
        ∀ L, L < new_level_count → levelCount (GetClusterNumber (513 * 4096)) L
          ≠ levelCount (GetClusterNumber (⟨512 * 4096, 8192⟩ : IndexEntry).array_size) L)) ∧
    ExpandToSize.levelCounts (fun _ => ⟨0, 0, 0⟩) (fun _ => 0) ⟨512 * 4096, 8192⟩ (513 * 4096)
      = some (2, 1) :=
  ⟨⟨by decide, by decide, by decide⟩,
    ExpandToSize_shallower_branch_iff_join_level (fun _ => ⟨0, 0, 0⟩) (fun _ => 0)
      ⟨512 * 4096, 8192⟩ (513 * 4096) (by decide) (by decide) (by decide),
    by decide!⟩

/-! ## C17: `SeekToCluster` -/

theorem updateIndices_all_changed (offset_in_array d : Nat) :
    ∀ (fuel level : Nat) (stack : Nat → LevelRecord), level ≤ d → d < level + fuel →
      (∀ L, level ≤ L → L < d →
        (stack L).current_cluster_logic_index ≠ GetClusterLogicIndexOfLevel offset_in_array L) →
      (SeekToCluster.updateIndices offset_in_array d fuel level stack).2 = d ∧
      ∀ L, (SeekToCluster.updateIndices offset_in_array d fuel level stack).1 L
        = if level ≤ L ∧ L < d
          then { stack L with
            current_cluster_logic_index := GetClusterLogicIndexOfLevel offset_in_array L }
          else stack L := by
  intro fuel
  induction fuel with
  | zero => intro level stack h1 h2; omega
  | succ fuel ih =>
    intro level stack hle hfuel hall
    by_cases hlt : level < d
    · have hne := hall level (le_refl _) hlt
      have hstep : SeekToCluster.updateIndices offset_in_array d (fuel + 1) level stack
          = SeekToCluster.updateIndices offset_in_array d fuel (level + 1)
              (setLogicIndex stack level (GetClusterLogicIndexOfLevel offset_in_array level)) := by
        simp only [SeekToCluster.updateIndices, if_pos hlt, if_neg hne]
      have hframe : ∀ L, L ≠ level →
          setLogicIndex stack level (GetClusterLogicIndexOfLevel offset_in_array level) L
            = stack L := by
        intro L hL
        simp only [setLogicIndex, if_neg hL]
      obtain ⟨h1, h2⟩ := ih (level + 1)
        (setLogicIndex stack level (GetClusterLogicIndexOfLevel offset_in_array level))
        (by omega) (by omega)
        (by
          intro L hL1 hL2
          rw [hframe L (by omega)]
          exact hall L (by omega) hL2)
      rw [hstep]
      refine ⟨h1, ?_⟩
      intro L
      rw [h2 L]
      by_cases hL : L = level
      · subst hL
        have hn : ¬ (L + 1 ≤ L ∧ L < d) := by omega
        have hp : L ≤ L ∧ L < d := ⟨le_refl _, hlt⟩
        rw [if_neg hn, if_pos hp]
        simp [setLogicIndex]
      · rw [hframe L hL]
        by_cases h3 : level + 1 ≤ L ∧ L < d
        · have h4 : level ≤ L ∧ L < d := ⟨by omega, h3.2⟩
          rw [if_pos h3, if_pos h4]
        · have h4 : ¬ (level ≤ L ∧ L < d) := by omega
          rw [if_neg h3, if_neg h4]
    · have hd : level = d := by omega
      have hstep : SeekToCluster.updateIndices offset_in_array d (fuel + 1) level stack
          = (stack, level) := by
        simp only [SeekToCluster.updateIndices, if_neg hlt]
      rw [hstep]
      refine ⟨hd, ?_⟩
      intro L
      have hn : ¬ (level ≤ L ∧ L < d) := by omega
      rw [if_neg hn]

theorem refreshOffsets_logic_index (mem : Nat → Byte) :
    ∀ (n parent : Nat) (stack : Nat → LevelRecord) (L : Nat),
      ((SeekToCluster.refreshOffsets mem n parent stack) L).current_cluster_logic_index
        = (stack L).current_cluster_logic_index := by
  intro n
  induction n with
  | zero => intro parent stack L; rfl
  | succ n ih =>
    intro parent stack L
    rw [SeekToCluster.refreshOffsets]
    rw [ih]
    unfold setClusterOffset
    split_ifs <;> rfl

theorem refreshOffsets_leaf (mem : Nat → Byte) (offset_in_array : Nat) :
    ∀ (n parent : Nat) (stack : Nat → LevelRecord), 1 ≤ n →
      (∀ L, L < n →
        (stack L).current_cluster_logic_index = GetClusterLogicIndexOfLevel offset_in_array L) →
      ((SeekToCluster.refreshOffsets mem n parent stack) 0).current_cluster_offset
        = referenceLeaf mem offset_in_array n parent := by
  intro n
  induction n with
  | zero => intro parent stack h; omega
  | succ n ih =>
    intro parent stack _ hidx
    rw [SeekToCluster.refreshOffsets, referenceLeaf]
    rw [hidx n (by omega)]
    unfold GetClusterLogicIndexOfLevel cluster_index_mask cluster_index_size
    by_cases hn : n = 0
    · subst hn
      simp [SeekToCluster.refreshOffsets, referenceLeaf, setClusterOffset]
    · rw [ih _ _ (by omega)]
      intro L hL
      have hne : L ≠ n := by omega
      simp only [setClusterOffset, if_neg hne]
      rw [hidx L (by omega)]

/-- C17: `SeekToCluster` does not find the right leaf when the seek changes the
child index at every level.  For every cursor of depth `d >= 1` and every
`offset_in_array` whose logical index differs from the cached one at every
level `L < d`, the first loop ends with `level_to_update = d`, the test
`level_to_update == stack_level_count - 1` fails, and the walk starts from the
records `d + 1` and `d` of the stack, which are not in use, instead of
`entry.offset`: the level-0 offset after the seek is the reference walk started
at the pointer read at `stack[d + 1].current_cluster_offset +
(stack[d].current_cluster_logic_index & 511) * 8`. -/
theorem SeekToCluster_every_level_changed_skips_root (s : Engine) (it : L4096PlusClusterIterator)
    (offset_in_array : Nat) (hd : 1 ≤ it.stack_level_count) (hdU : it.stack_level_count < U64)
    (hall : ∀ L, L < it.stack_level_count →
      (it.cluster_level_stack L).current_cluster_logic_index
        ≠ GetClusterLogicIndexOfLevel offset_in_array L) :
    GetCurrentClusterOffset (SeekToCluster s it offset_in_array)
      = referenceLeaf s.mem offset_in_array it.stack_level_count
          (Get64 s.mem
            (((it.cluster_level_stack (it.stack_level_count + 1)).current_cluster_offset
              + (((it.cluster_level_stack it.stack_level_count).current_cluster_logic_index
                  &&& cluster_index_mask) * cluster_index_size) % U64) % U64)) := by
  obtain ⟨h1, h2⟩ := updateIndices_all_changed offset_in_array it.stack_level_count
    (it.stack_level_count + 1) 0 it.cluster_level_stack (Nat.zero_le _) (by omega)
    (fun L _ hL => hall L hL)
  have hne : ¬ (it.stack_level_count = (it.stack_level_count + U64 - 1) % U64) := by
    unfold U64 at hdU ⊢
    omega
  have hdd : ¬ (0 ≤ it.stack_level_count ∧ it.stack_level_count < it.stack_level_count) := by
    omega
  have hd1 : ¬ (0 ≤ it.stack_level_count + 1 ∧ it.stack_level_count + 1 < it.stack_level_count) := by
    omega
  unfold GetCurrentClusterOffset SeekToCluster
  simp only [h1, if_neg hne]
  rw [SeekToCluster.refreshOffsets, h2 it.stack_level_count, h2 (it.stack_level_count + 1),
    if_neg hdd, if_neg hd1]
  apply refreshOffsets_leaf _ _ _ _ _ hd
  intro L hL
  have hne2 : L ≠ it.stack_level_count := by omega
  have hin : 0 ≤ L ∧ L < it.stack_level_count := ⟨Nat.zero_le _, hL⟩
  simp only [setClusterOffset, if_neg hne2]
  rw [h2 L, if_pos hin]

/-- C17, at a concrete seek: on the depth-1 tree of `treeStore` the cursor on
leaf 0 is moved to offset 4096.  The reference walk from `entry.offset = 8192`
gives the leaf 16384; the seek gives 0.  The same happens for the cursor made
by the constructor and `SeekToCluster(0)` (which finds leaf 0 at 12288) followed
by `GotoNextCluster()`. -/
theorem SeekToCluster_every_level_changed_skips_root_witness :
    (1 ≤ cursorAtLeaf0.stack_level_count ∧ cursorAtLeaf0.stack_level_count < U64 ∧
      ∀ L, L < cursorAtLeaf0.stack_level_count →
        (cursorAtLeaf0.cluster_level_stack L).current_cluster_logic_index
          ≠ GetClusterLogicIndexOfLevel 4096 L) ∧
    GetCurrentClusterOffset (SeekToCluster treeStore cursorAtLeaf0 4096)
      = referenceLeaf treeStore.mem 4096 cursorAtLeaf0.stack_level_count
          (Get64 treeStore.mem
            (((cursorAtLeaf0.cluster_level_stack
                (cursorAtLeaf0.stack_level_count + 1)).current_cluster_offset
              + (((cursorAtLeaf0.cluster_level_stack
                    cursorAtLeaf0.stack_level_count).current_cluster_logic_index
                  &&& cluster_index_mask) * cluster_index_size) % U64) % U64)) ∧
    GetCurrentClusterOffset (SeekToCluster treeStore cursorAtLeaf0 4096) = 0 ∧
    referenceLeaf treeStore.mem 4096 1 treeEntry.offset = 16384 ∧
    (L4096PlusClusterIterator.create (fun _ => ⟨0, 0, 0⟩) treeEntry).map
      (fun it => (GetCurrentClusterOffset (SeekToCluster treeStore it 0),
        GetCurrentClusterOffset (GotoNextCluster treeStore (SeekToCluster treeStore it 0))))
      = some (12288, 0) :=
  have hall : ∀ L, L < cursorAtLeaf0.stack_level_count →
      (cursorAtLeaf0.cluster_level_stack L).current_cluster_logic_index
        ≠ GetClusterLogicIndexOfLevel 4096 L := by
    intro L hL
    have h0 : L = 0 := by
      have : cursorAtLeaf0.stack_level_count = 1 := rfl
      omega
    subst h0
    decide
  ⟨⟨by decide, by decide, hall⟩,
    SeekToCluster_every_level_changed_skips_root treeStore cursorAtLeaf0 4096 (by decide)
      (by decide) hall,
    by decide!, by decide!, by decide!⟩

/-! ## C8: resizing twice, with the header inside the file -/

/-- C8: `SetArraySize(i, n); SetArraySize(i, n)` is not a single call.  On the
store after `Format()`, two `CreateArray()` and `SetArraySize(1, 16)` the index
1 is valid and `SetArraySize(1, 300)` returns: it takes the L512 block of the
array from `AllocateBlock`, which on the empty L512 freelist hands out the file
offset 0, and `MoveData(256, 0, 16)` copies the array over the first 16 bytes of
the header, so `file_size` and the `array_size` of the index table are 0
afterwards.  The second `SetArraySize(1, 300)` throws invalid-argument.
After `Format()` and 17 `CreateArray()` the index table itself is the block at
file offset 0; there both calls of `SetArraySize(1, 8)` return, and the second
one changes `free_index_head` from 17 to 8.  No size in these runs exceeds
4096, so no operation of the iterator parameter is reached. -/
theorem SetArraySize_second_call_differs :
    (Mapped.IsIndexValid plainOps (Mapped.sized16 plainOps) ⟨1⟩ = true ∧
      raised (Mapped.SetArraySize plainOps (Mapped.sized16 plainOps) ⟨1⟩ 300) = none ∧
      Mapped.GetIndexEntry plainOps
          (Mapped.stateAfter (Mapped.sized16 plainOps)
            (Mapped.SetArraySize plainOps (Mapped.sized16 plainOps) ⟨1⟩ 300)) ⟨1⟩
        = ⟨300, 0⟩ ∧
      Mapped.index_table_entry (Mapped.sized16 plainOps) = ⟨32, 512⟩ ∧
      Mapped.index_table_entry
          (Mapped.stateAfter (Mapped.sized16 plainOps)
            (Mapped.SetArraySize plainOps (Mapped.sized16 plainOps) ⟨1⟩ 300))
        = ⟨0, 512⟩ ∧
      raised (Mapped.SetArraySize plainOps
          (Mapped.stateAfter (Mapped.sized16 plainOps)
            (Mapped.SetArraySize plainOps (Mapped.sized16 plainOps) ⟨1⟩ 300)) ⟨1⟩ 300)
        = some Fault.invalid_argument) ∧
    (Mapped.index_table_entry (Mapped.created plainOps 17) = ⟨512, 0⟩ ∧
      Mapped.IsIndexValid plainOps (Mapped.created plainOps 17) ⟨1⟩ = true ∧
      raised (Mapped.SetArraySize plainOps (Mapped.created plainOps 17) ⟨1⟩ 8) = none ∧
      raised (Mapped.SetArraySize plainOps
          (Mapped.stateAfter (Mapped.created plainOps 17)
            (Mapped.SetArraySize plainOps (Mapped.created plainOps 17) ⟨1⟩ 8)) ⟨1⟩ 8) = none ∧
      (Mapped.free_index_head
          (Mapped.stateAfter (Mapped.created plainOps 17)
            (Mapped.SetArraySize plainOps (Mapped.created plainOps 17) ⟨1⟩ 8))).value = 17 ∧
      (Mapped.free_index_head
          (Mapped.stateAfter
            (Mapped.stateAfter (Mapped.created plainOps 17)
              (Mapped.SetArraySize plainOps (Mapped.created plainOps 17) ⟨1⟩ 8))
            (Mapped.SetArraySize plainOps
              (Mapped.stateAfter (Mapped.created plainOps 17)
                (Mapped.SetArraySize plainOps (Mapped.created plainOps 17) ⟨1⟩ 8))
              ⟨1⟩ 8))).value = 8) := by
  decide!

/-! ## C12: `DestroyArray`, with the header inside the file -/

/-- C12: `DestroyArray` changes the entry of another index.  After `Format()`
and 17 calls of `CreateArray()` the index table is the 512-byte block that
`AllocateBlock(L512)` handed out at file offset 0, so its entries lie over the
header: entry 1 occupies the bytes 16..31, the `offset` of the table and
`free_index_head`.  The indices 1 and 2 are valid.  `DestroyArray(2)` returns,
the entry of 2 is the freelist marker with the old head 17, `free_index_head`
is 2 and `IsIndexValid(2)` is false; but the entry of index 1 has changed from
`{0, 17}` to `{0, 2}`, since its second word is `free_index_head`.  No size in
this run exceeds 4096, so no operation of the iterator parameter is reached. -/
theorem DestroyArray_changes_other_entry :
    Mapped.index_table_entry (Mapped.created plainOps 17) = ⟨512, 0⟩ ∧
    (Mapped.free_index_head (Mapped.created plainOps 17)).value = 17 ∧
    Mapped.IsIndexValid plainOps (Mapped.created plainOps 17) ⟨1⟩ = true ∧
    Mapped.IsIndexValid plainOps (Mapped.created plainOps 17) ⟨2⟩ = true ∧
    Mapped.GetIndexEntryOffset plainOps (Mapped.created plainOps 17) ⟨1⟩ = 16 ∧
    raised (Mapped.DestroyArray plainOps (Mapped.created plainOps 17) ⟨2⟩) = none ∧
    Mapped.GetIndexEntry plainOps
        (Mapped.stateAfter (Mapped.created plainOps 17)
          (Mapped.DestroyArray plainOps (Mapped.created plainOps 17) ⟨2⟩)) ⟨2⟩
      = ⟨free_entry_array_size, 17⟩ ∧
    (Mapped.free_index_head
        (Mapped.stateAfter (Mapped.created plainOps 17)
          (Mapped.DestroyArray plainOps (Mapped.created plainOps 17) ⟨2⟩))).value = 2 ∧
    Mapped.IsIndexValid plainOps
        (Mapped.stateAfter (Mapped.created plainOps 17)
          (Mapped.DestroyArray plainOps (Mapped.created plainOps 17) ⟨2⟩)) ⟨2⟩ = false ∧
    Mapped.GetIndexEntry plainOps (Mapped.created plainOps 17) ⟨1⟩ = ⟨0, 17⟩ ∧
    Mapped.GetIndexEntry plainOps
        (Mapped.stateAfter (Mapped.created plainOps 17)
          (Mapped.DestroyArray plainOps (Mapped.created plainOps 17) ⟨2⟩)) ⟨1⟩
      = ⟨0, 2⟩ := by
  decide!

/-! ## C21: allocation after deallocation, with the header inside the file -/

/-- The hypothesis that the field ends inside the region is needed: a call
whose `size` reaches past byte 256 (a `max_user_metadata_size` of about 2 KiB,
as §3 has it, would admit such sizes) writes byte `256 - user_metadata_offset`
of the buffer into the block at file offset 256. -/
theorem StoreUserMetadata_past_header (m : MappedEngine) (data : Nat → Byte) (size : Nat)
    (h : 256 < Mapped.user_metadata_offset + size) :
    (Mapped.StoreUserMetadata m data size).mem 256
      = data (256 - Mapped.user_metadata_offset) := by
  simp only [Mapped.StoreUserMetadata, memcpyIn]
  rw [if_pos ⟨by decide, h⟩]

end DynamicStore
